import Mathlib

/-!
ProseMirror2PDF: the document renderer of `main.go`.

A shallow embedding of `renderNode`, `renderText`, `renderParagraph`,
`renderHeading`, `renderList` and `NewPdfDocument`, followed by theorems about
the canvas operations they issue.

Conventions of the embedding:

* Go `string` is `String`, Go slices are `List`, Go `int` is `Int` with the
  64-bit wrap made explicit (`wrapInt`).
* Every `float64` that occurs in the program is an integer (12, 20, and
  `18 - float64(level*2)`); such a value is an `Int`, and the rounding of the
  conversion and of the subtraction is explicit (`roundFloat64`).
* The `gopdf` canvas is threaded through the renderers as a value; a renderer
  returns the canvas after its calls together with what the Go function
  returns. A Go `error` is `Option String` (`none` is `nil`).
* A run-time panic (index out of range) is an outcome of its own.
-/

namespace ProseMirror2PDF

/-! ## Data model -/

/-- Attributes hold additional styling info (`Level` for headings, `Color` for
text colour); an absent JSON field is the zero value. -/
structure Attributes where
  Level : Int
  Color : String
  deriving DecidableEq, Repr

/-- Mark represents a text style; `Type_` is the Go field `Type`. -/
structure Mark where
  Type_ : String
  Attrs : Attributes
  deriving DecidableEq, Repr

/-- ProseMirrorNode represents a node of the ProseMirror JSON: the fields are,
in order, `Type`, `Content`, `Text`, `Marks`, `Attrs`. -/
inductive ProseMirrorNode where
  | mk (type : String) (content : List ProseMirrorNode) (text : String)
      (marks : List Mark) (attrs : Attributes)

/-- Field `Type` of a node. -/
def ProseMirrorNode.Type_ : ProseMirrorNode → String
  | .mk t _ _ _ _ => t

/-- Field `Content` of a node. -/
def ProseMirrorNode.Content : ProseMirrorNode → List ProseMirrorNode
  | .mk _ c _ _ _ => c

/-- Field `Text` of a node. -/
def ProseMirrorNode.Text : ProseMirrorNode → String
  | .mk _ _ t _ _ => t

/-- Field `Marks` of a node. -/
def ProseMirrorNode.Marks : ProseMirrorNode → List Mark
  | .mk _ _ _ m _ => m

/-- Field `Attrs` of a node. -/
def ProseMirrorNode.Attrs : ProseMirrorNode → Attributes
  | .mk _ _ _ _ a => a

/-! ## Machine arithmetic -/

/-- Two's-complement wrap of a mathematical integer into the 64-bit Go `int`. -/
def wrapInt (v : Int) : Int :=
  (v + 2 ^ 63) % 2 ^ 64 - 2 ^ 63

/-- Round an integer to the nearest `float64` (ties to even); the result is the
integer value of that float. Integers below `2^53` in magnitude are exact. -/
def roundFloat64 (v : Int) : Int :=
  let a := v.natAbs
  if a < 2 ^ 53 then v
  else
    let e := Nat.log2 a - 52
    let q := a / 2 ^ e
    let r := a % 2 ^ e
    let half := 2 ^ (e - 1)
    let q1 := if half < r ∨ (r = half ∧ q % 2 = 1) then q + 1 else q
    if v < 0 then -((q1 * 2 ^ e : Nat) : Int) else ((q1 * 2 ^ e : Nat) : Int)

/-! ## The gopdf canvas -/

/-- One operation issued on the `gopdf.GoPdf` value, with its arguments. -/
inductive Call where
  | Start
  | AddPage
  | SetMargins (left top right bottom : Int)
  | AddTTFFont (family ttfpath : String)
  | SetFont (family style : String) (size : Int)
  | SetTextColor (r g b : Nat)
  | Cell (text : String)
  | Br (h : Int)
  | SetX (x : Int)
  | GetBytesPdfReturnErr
  deriving DecidableEq, Repr

/-- A piece of text drawn on the page, with the font, size and colour that
were current when it was drawn. -/
structure Glyphs where
  text : String
  family : String
  size : Int
  color : Nat × Nat × Nat
  deriving DecidableEq, Repr

/-- Modelled from the spec: the behaviour of the page-output backend
(`github.com/signintech/gopdf`, not part of the sources). `reject history c`
is the error, if any, that the backend reports for operation `c` issued after
`history`; `output history` is the artifact serialised by a successful
`GetBytesPdfReturnErr`. -/
structure Backend where
  reject : List Call → Call → Option String
  output : List Call → List Nat

/-- Modelled from the spec: the state of a `gopdf.GoPdf` canvas (section 6 of the
specification: `selectFont` sets the current font and size for subsequent text
emission, `emitTextCell` draws text with them). `calls` logs every operation
issued, in order; `cells` is the text drawn so far. -/
structure GoPdf where
  backend : Backend
  calls : List Call
  family : String
  size : Int
  color : Nat × Nat × Nat
  cells : List Glyphs

/-- The zero value `gopdf.GoPdf{}` over a given backend. -/
def GoPdf.new (backend : Backend) : GoPdf :=
  { backend := backend, calls := [], family := "", size := 0, color := (0, 0, 0), cells := [] }

/-- Log an operation. -/
def GoPdf.log (pdf : GoPdf) (c : Call) : GoPdf :=
  { pdf with calls := pdf.calls ++ [c] }

/-- Operation `pdf.Start(config)`. -/
def GoPdf.Start (pdf : GoPdf) : GoPdf :=
  pdf.log Call.Start

/-- Operation `pdf.AddPage()`. -/
def GoPdf.AddPage (pdf : GoPdf) : GoPdf :=
  pdf.log Call.AddPage

/-- Operation `pdf.SetMargins(left, top, right, bottom)`. -/
def GoPdf.SetMargins (pdf : GoPdf) (left top right bottom : Int) : GoPdf :=
  pdf.log (Call.SetMargins left top right bottom)

/-- Operation `pdf.AddTTFFont(family, ttfpath)`, returning the canvas and the
error. -/
def GoPdf.AddTTFFont (pdf : GoPdf) (family ttfpath : String) : GoPdf × Option String :=
  (pdf.log (Call.AddTTFFont family ttfpath),
    pdf.backend.reject pdf.calls (Call.AddTTFFont family ttfpath))

/-- Operation `pdf.SetFont(family, style, size)`: on success the family and size
become current. -/
def GoPdf.SetFont (pdf : GoPdf) (family style : String) (size : Int) : GoPdf × Option String :=
  match pdf.backend.reject pdf.calls (Call.SetFont family style size) with
  | some err => (pdf.log (Call.SetFont family style size), some err)
  | none => ({ pdf.log (Call.SetFont family style size) with family := family, size := size }, none)

/-- Operation `pdf.SetTextColor(r, g, b)`; it reports no error. -/
def GoPdf.SetTextColor (pdf : GoPdf) (r g b : Nat) : GoPdf :=
  { pdf.log (Call.SetTextColor r g b) with color := (r, g, b) }

/-- Operation `pdf.Cell(nil, text)`: on success the text is drawn with the
current font, size and colour. -/
def GoPdf.Cell (pdf : GoPdf) (text : String) : GoPdf × Option String :=
  match pdf.backend.reject pdf.calls (Call.Cell text) with
  | some err => (pdf.log (Call.Cell text), some err)
  | none =>
    ({ pdf.log (Call.Cell text) with
        cells := pdf.cells ++ [{ text := text, family := pdf.family, size := pdf.size,
                                 color := pdf.color }] }, none)

/-- Operation `pdf.Br(h)`; it reports no error. -/
def GoPdf.Br (pdf : GoPdf) (h : Int) : GoPdf :=
  pdf.log (Call.Br h)

/-- Operation `pdf.SetX(x)`; it reports no error. -/
def GoPdf.SetX (pdf : GoPdf) (x : Int) : GoPdf :=
  pdf.log (Call.SetX x)

/-- Operation `pdf.GetBytesPdfReturnErr()`. -/
def GoPdf.GetBytesPdfReturnErr (pdf : GoPdf) : GoPdf × Option (List Nat) × Option String :=
  match pdf.backend.reject pdf.calls Call.GetBytesPdfReturnErr with
  | some err => (pdf.log Call.GetBytesPdfReturnErr, none, some err)
  | none => (pdf.log Call.GetBytesPdfReturnErr, some (pdf.backend.output pdf.calls), none)

/-! ## The renderers -/

/-- How a Go function that returns `error` ends: it returns (an error or
`nil`), or it panics. -/
inductive Outcome where
  | returned (err : Option String)
  | panicked (msg : String)
  deriving DecidableEq, Repr

/-- The loop `for _, mark := range marks` of `renderText`, threading the local
variables `font` and `color`. -/
def renderTextMarks (font color : String) : List Mark → String × String
  | [] => (font, color)
  | mark :: rest =>
    match mark.Type_ with
    | "bold" => renderTextMarks "bold" color rest
    | "italic" => renderTextMarks "italic" color rest
    | "underline" => renderTextMarks font color rest
    | "textColor" => renderTextMarks font mark.Attrs.Color rest
    | _ => renderTextMarks font color rest

/-- renderText applies text styling and writes to PDF. The results of
`SetFont` and `Cell` are discarded, as in the source. -/
def renderText (pdf : GoPdf) (text : String) (marks : List Mark) : GoPdf × Option String :=
  let font := "regular"
  let size := 12
  let color := "black"
  let fc := renderTextMarks font color marks
  let font := fc.1
  let color := fc.2
  let pdf := (pdf.SetFont font "" size).1
  let pdf := if color = "blue" then pdf.SetTextColor 0 0 255 else pdf.SetTextColor 0 0 0
  let pdf := (pdf.Cell text).1
  (pdf, none)

/-- The loop `for _, child := range node.Content` of `renderParagraph`; a
`some` result is the early `return err`. -/
def renderParagraphLoop (pdf : GoPdf) : List ProseMirrorNode → GoPdf × Option String
  | [] => (pdf, none)
  | child :: rest =>
    if child.Text ≠ "" then
      match renderText pdf child.Text child.Marks with
      | (pdf1, some err) => (pdf1, some err)
      | (pdf1, none) => renderParagraphLoop pdf1 rest
    else renderParagraphLoop pdf rest

/-- renderParagraph formats paragraphs. -/
def renderParagraph (pdf : GoPdf) (node : ProseMirrorNode) : GoPdf × Option String :=
  match renderParagraphLoop pdf node.Content with
  | (pdf1, some err) => (pdf1, some err)
  | (pdf1, none) => (pdf1.Br 20, none)

/-- The loop `for _, child := range node.Content` of `renderHeading`; the
result of `renderText` is discarded. -/
def renderHeadingLoop (pdf : GoPdf) : List ProseMirrorNode → GoPdf
  | [] => pdf
  | child :: rest =>
    if child.Text ≠ "" then
      renderHeadingLoop (renderText pdf child.Text child.Marks).1 rest
    else renderHeadingLoop pdf rest

/-- renderHeading applies heading styles based on level. -/
def renderHeading (pdf : GoPdf) (node : ProseMirrorNode) : GoPdf × Option String :=
  let level := node.Attrs.Level
  let font := "bold"
  let size := roundFloat64 (18 - roundFloat64 (wrapInt (level * 2)))
  let pdf := (pdf.SetFont font "" size).1
  let pdf := renderHeadingLoop pdf node.Content
  let pdf := pdf.Br 20
  (pdf, none)

/-- The marker of a bullet item: the string literal of the source, whose bytes
are `C3 A2 E2 82 AC C2 A2 20`. -/
def bulletMarker : String := "â€¢ "

/-- Go `fmt.Sprintf("%d. ", n)` for a non-negative `n`. -/
def orderedMarker (n : Nat) : String :=
  toString n ++ ". "

/-- The loop `for i, child := range node.Content` of `renderList`, from index
`i` on. `child.Content[0]` panics on an empty `Content`. -/
def renderListLoop (pdf : GoPdf) (listType : String) (i : Nat) :
    List ProseMirrorNode → GoPdf × Outcome
  | [] => (pdf, Outcome.returned none)
  | child :: rest =>
    if child.Type_ = "list_item" then
      let pdf := pdf.SetX 20
      let pdf :=
        if listType = "ordered" then (pdf.Cell (orderedMarker (i + 1))).1
        else (pdf.Cell bulletMarker).1
      match child.Content with
      | [] => (pdf, Outcome.panicked "index out of range [0] with length 0")
      | first :: _ => renderListLoop (renderParagraph pdf first).1 listType (i + 1) rest
    else renderListLoop pdf listType (i + 1) rest

/-- renderList formats bullet or ordered lists. -/
def renderList (pdf : GoPdf) (node : ProseMirrorNode) (listType : String) : GoPdf × Outcome :=
  renderListLoop pdf listType 0 node.Content

/-- Lift the result of a function that cannot panic. -/
def returns (r : GoPdf × Option String) : GoPdf × Outcome :=
  (r.1, Outcome.returned r.2)

/-- renderNode renders ProseMirror nodes to the PDF. -/
def renderNode (pdf : GoPdf) (node : ProseMirrorNode) : GoPdf × Outcome :=
  match node.Type_ with
  | "paragraph" => returns (renderParagraph pdf node)
  | "heading" => returns (renderHeading pdf node)
  | "bullet_list" => renderList pdf node "bullet"
  | "ordered_list" => renderList pdf node "ordered"
  | _ => (pdf, Outcome.returned none)

/-- The loop `for _, node := range content` of `NewPdfDocument`; a
`returned (some err)` result is the early `return nil, err`. -/
def renderNodes (pdf : GoPdf) : List ProseMirrorNode → GoPdf × Outcome
  | [] => (pdf, Outcome.returned none)
  | node :: rest =>
    match renderNode pdf node with
    | (pdf1, Outcome.returned none) => renderNodes pdf1 rest
    | (pdf1, Outcome.returned (some err)) => (pdf1, Outcome.returned (some err))
    | (pdf1, Outcome.panicked msg) => (pdf1, Outcome.panicked msg)

/-- How `NewPdfDocument` ends: it returns a byte slice (`none` is `nil`) and an
error, or it panics. -/
inductive DocOutcome where
  | returned (bytes : Option (List Nat)) (err : Option String)
  | panicked (msg : String)
  deriving DecidableEq, Repr

/-- NewPdfDocument creates a PDF with gopdf, adds basic styles, and returns it
as a byte slice. The result of the `SetFont` before the loop is discarded. -/
def NewPdfDocument (backend : Backend) (content : List ProseMirrorNode) : GoPdf × DocOutcome :=
  let pdf := GoPdf.new backend
  let pdf := pdf.Start
  let pdf := pdf.AddPage
  let pdf := pdf.SetMargins 10 10 10 10
  match pdf.AddTTFFont "regular" "./fonts/arial/ARIAL.TTF" with
  | (pdf, some err) => (pdf, DocOutcome.returned none (some err))
  | (pdf, none) =>
  match pdf.AddTTFFont "bold" "./fonts/arial/ARIALBD.TTF" with
  | (pdf, some err) => (pdf, DocOutcome.returned none (some err))
  | (pdf, none) =>
  match pdf.AddTTFFont "italic" "./fonts/arial/ARIALI.TTF" with
  | (pdf, some err) => (pdf, DocOutcome.returned none (some err))
  | (pdf, none) =>
  let pdf := (pdf.SetFont "regular" "" 12).1
  match renderNodes pdf content with
  | (pdf, Outcome.panicked msg) => (pdf, DocOutcome.panicked msg)
  | (pdf, Outcome.returned (some err)) => (pdf, DocOutcome.returned none (some err))
  | (pdf, Outcome.returned none) =>
  match pdf.GetBytesPdfReturnErr with
  | (pdf, _, some err) => (pdf, DocOutcome.returned none (some err))
  | (pdf, pdfBytes, none) => (pdf, DocOutcome.returned pdfBytes none)

/-! ## Test fixtures -/

/-- A backend on which every operation succeeds and whose artifact is empty. -/
def okBackend : Backend :=
  { reject := fun _ _ => none, output := fun _ => [] }

/-- A text leaf. -/
def textLeaf (text : String) (marks : List Mark) : ProseMirrorNode :=
  .mk "text" [] text marks ⟨0, ""⟩

/-- A mark without attributes. -/
def plainMark (type : String) : Mark :=
  ⟨type, ⟨0, ""⟩⟩

/-- A `textColor` mark. -/
def colorMark (color : String) : Mark :=
  ⟨"textColor", ⟨0, color⟩⟩

/-- A node with content only. -/
def block (type : String) (content : List ProseMirrorNode) : ProseMirrorNode :=
  .mk type content "" [] ⟨0, ""⟩

/-- A heading of a given level. -/
def headingNode (level : Int) (content : List ProseMirrorNode) : ProseMirrorNode :=
  .mk "heading" content "" [] ⟨level, ""⟩

/-- The document of the end-to-end example: a level-1 heading "Title" and a
paragraph "Hello " followed by a bold "world". -/
def exampleDocument : List ProseMirrorNode :=
  [headingNode 1 [textLeaf "Title" []],
   block "paragraph" [textLeaf "Hello " [], textLeaf "world" [plainMark "bold"]]]

/-! ## Call sequences -/

/-- Whether a call is a text cell. -/
def Call.isCell : Call → Bool
  | Call.Cell _ => true
  | _ => false

/-- Whether a call selects a font, emits a text cell or breaks the line. -/
def Call.isFontCellBreak : Call → Bool
  | Call.SetFont _ _ _ => true
  | Call.Cell _ => true
  | Call.Br _ => true
  | _ => false

/-- The three calls of one `renderText`, with the font and colour that its loop
over the marks leaves in `font` and `color`. -/
def textCalls (text : String) (marks : List Mark) : List Call :=
  [Call.SetFont (renderTextMarks "regular" "black" marks).1 "" 12,
   if (renderTextMarks "regular" "black" marks).2 = "blue" then Call.SetTextColor 0 0 255
   else Call.SetTextColor 0 0 0,
   Call.Cell text]

/-- The calls of one `renderParagraph`: those of `renderText` for each child
with a non-empty text, then the break. -/
def paragraphCalls (node : ProseMirrorNode) : List Call :=
  (node.Content.filter (fun child => child.Text ≠ "")).flatMap
      (fun child => textCalls child.Text child.Marks) ++ [Call.Br 20]

/-- The text of the marker cells of a call sequence: the cells issued right
after a `SetX`. -/
def markerCells : List Call → List String
  | Call.SetX _ :: Call.Cell text :: rest => text :: markerCells rest
  | _ :: rest => markerCells rest
  | [] => []

/-- The calls of `renderList` with list type "ordered" for the child at index
`i`, when the child is not a list_item with an empty content: the indent, the
marker with the 1-based index, and the first content block as a paragraph. -/
def orderedItemCalls (i : Nat) (child : ProseMirrorNode) : List Call :=
  if child.Type_ = "list_item" then
    Call.SetX 20 :: Call.Cell (toString (i + 1) ++ ". ") ::
      (child.Content.head?.map paragraphCalls).getD []
  else []

/-- An ordered list whose first and third children are not list items. -/
def orderedExample : ProseMirrorNode :=
  block "ordered_list"
    [block "image" [], block "list_item" [block "paragraph" [textLeaf "a" []]],
     block "rule" [], block "list_item" [block "paragraph" []]]

/-- A document with a table between two paragraphs. -/
def tableExample : List ProseMirrorNode :=
  [block "paragraph" [textLeaf "a" []],
   .mk "table" [block "paragraph" [textLeaf "cell" [plainMark "bold"]]] "t" [plainMark "bold"]
     ⟨2, "blue"⟩,
   block "paragraph" [textLeaf "b" []]]

/-- A backend that reports an error for every `SetFont` and every `Cell`, and
accepts everything else. -/
def failingBackend : Backend :=
  { reject := fun _ c =>
      match c with
      | Call.SetFont _ _ _ => some "SetFont failed"
      | Call.Cell _ => some "Cell failed"
      | _ => none,
    output := fun _ => [] }

/-- A backend that cannot load the bold face. -/
def boldMissingBackend : Backend :=
  { reject := fun _ c =>
      if c = Call.AddTTFFont "bold" "./fonts/arial/ARIALBD.TTF" then some "font file not found"
      else none,
    output := fun _ => [] }

/-- The calls of `NewPdfDocument` before the fonts are registered. -/
def setupCalls : List Call :=
  [Call.Start, Call.AddPage, Call.SetMargins 10 10 10 10]

/-- The three font registrations of `NewPdfDocument`, in order. -/
def fontCalls : List Call :=
  [Call.AddTTFFont "regular" "./fonts/arial/ARIAL.TTF",
   Call.AddTTFFont "bold" "./fonts/arial/ARIALBD.TTF",
   Call.AddTTFFont "italic" "./fonts/arial/ARIALI.TTF"]

/-- A bullet list whose second item has no content block. -/
def bulletExample : ProseMirrorNode :=
  block "bullet_list"
    [block "list_item" [block "paragraph" [textLeaf "a" []]],
     block "list_item" [],
     block "list_item" [block "paragraph" [textLeaf "c" []]]]

/-- The node with the content of every node `depth + 1` levels below it
removed: `pruneBelow 0` empties the content of the node itself. -/
def pruneBelow : Nat → ProseMirrorNode → ProseMirrorNode
  | 0, .mk type _ text marks attrs => .mk type [] text marks attrs
  | depth + 1, .mk type content text marks attrs =>
    .mk type (content.map (pruneBelow depth)) text marks attrs

/-- A bullet list with one item, a paragraph and a leaf: the text is three
levels below the list. -/
def nestedTextExample : ProseMirrorNode :=
  block "bullet_list" [block "list_item" [block "paragraph" [textLeaf "deep" []]]]

/-- A document with a paragraph holding a bold blue leaf, then a bullet list. -/
def styledThenList : List ProseMirrorNode :=
  [block "paragraph" [textLeaf "x" [plainMark "bold", colorMark "blue"]],
   block "bullet_list" [block "list_item" [block "paragraph" [textLeaf "a" []]]]]

/-- The children that the loop of `renderList` gets to: all of them up to and
including the first list_item whose content is empty, on which
`child.Content[0]` panics. -/
def reachedChildren : List ProseMirrorNode → List ProseMirrorNode
  | [] => []
  | child :: rest =>
    if child.Type_ = "list_item" ∧ child.Content.isEmpty then [child]
    else child :: reachedChildren rest

/-- An ordered list whose third item has no content block. -/
def orderedPanicExample : ProseMirrorNode :=
  block "ordered_list"
    [block "list_item" [block "paragraph" [textLeaf "a" []]],
     block "list_item" [block "paragraph" [textLeaf "b" []]],
     block "list_item" [],
     block "list_item" [block "paragraph" [textLeaf "d" []]]]

/-- A bullet list whose item holds, as first block, a nested bullet list with
a well-formed item. -/
def nestedListExample : ProseMirrorNode :=
  block "bullet_list"
    [block "list_item"
      [block "bullet_list" [block "list_item" [block "paragraph" [textLeaf "inner" []]]]]]

/-- The same with a nested item that carries a text of its own. -/
def nestedListTextExample : ProseMirrorNode :=
  block "bullet_list"
    [block "list_item" [block "bullet_list" [.mk "list_item" [] "oops" [] ⟨0, ""⟩]]]

/-! ## Lemmas on the canvas operations -/

theorem Type_mk (t : String) (c : List ProseMirrorNode) (x : String) (m : List Mark)
    (a : Attributes) : (ProseMirrorNode.mk t c x m a).Type_ = t := rfl

theorem Content_mk (t : String) (c : List ProseMirrorNode) (x : String) (m : List Mark)
    (a : Attributes) : (ProseMirrorNode.mk t c x m a).Content = c := rfl

theorem SetFont_calls (pdf : GoPdf) (family style : String) (size : Int) :
    (pdf.SetFont family style size).1.calls = pdf.calls ++ [Call.SetFont family style size] := by
  unfold GoPdf.SetFont
  split <;> rfl

theorem Cell_calls (pdf : GoPdf) (text : String) :
    (pdf.Cell text).1.calls = pdf.calls ++ [Call.Cell text] := by
  unfold GoPdf.Cell
  split <;> rfl

theorem SetTextColor_calls (pdf : GoPdf) (r g b : Nat) :
    (pdf.SetTextColor r g b).calls = pdf.calls ++ [Call.SetTextColor r g b] := rfl

theorem Br_calls (pdf : GoPdf) (h : Int) : (pdf.Br h).calls = pdf.calls ++ [Call.Br h] := rfl

theorem SetX_calls (pdf : GoPdf) (x : Int) : (pdf.SetX x).calls = pdf.calls ++ [Call.SetX x] := rfl

/-! ## Lemmas on `renderText` -/

theorem getD_map_getLast?_cons {α β : Type} (f : α → β) (a : α) (l : List α) (d : β) :
    ((a :: l).getLast?.map f).getD d = (l.getLast?.map f).getD (f a) := by
  rw [List.getLast?_cons]
  cases l.getLast? <;> rfl

/-- The font left by the loop over the marks is the type of the last bold or
italic mark, or the initial font. -/
theorem renderTextMarks_font (font color : String) (marks : List Mark) :
    (renderTextMarks font color marks).1 =
      ((marks.filter (fun m => m.Type_ = "bold" ∨ m.Type_ = "italic")).getLast?.map
        (fun m => m.Type_)).getD font := by
  induction marks generalizing font color with
  | nil => rfl
  | cons mark rest ih =>
    simp only [renderTextMarks]
    split
    · next h =>
      rw [ih, List.filter_cons, if_pos (by simp [h]), getD_map_getLast?_cons, h]
    · next h =>
      rw [ih, List.filter_cons, if_pos (by simp [h]), getD_map_getLast?_cons, h]
    · next h =>
      rw [ih, List.filter_cons, if_neg (by simp [h])]
    · next h =>
      rw [ih, List.filter_cons, if_neg (by simp [h])]
    · next h1 h2 _ _ =>
      rw [ih, List.filter_cons, if_neg (by simpa using ⟨h1, h2⟩)]

/-- The colour left by the loop over the marks is the colour of the last
textColor mark, or the initial colour. -/
theorem renderTextMarks_color (font color : String) (marks : List Mark) :
    (renderTextMarks font color marks).2 =
      ((marks.filter (fun m => m.Type_ = "textColor")).getLast?.map
        (fun m => m.Attrs.Color)).getD color := by
  induction marks generalizing font color with
  | nil => rfl
  | cons mark rest ih =>
    simp only [renderTextMarks]
    split
    · next h =>
      rw [ih, List.filter_cons, if_neg (by simp [h])]
    · next h =>
      rw [ih, List.filter_cons, if_neg (by simp [h])]
    · next h =>
      rw [ih, List.filter_cons, if_neg (by simp [h])]
    · next h =>
      rw [ih, List.filter_cons, if_pos (by simp [h]), getD_map_getLast?_cons]
    · next _ _ _ h4 =>
      rw [ih, List.filter_cons, if_neg (by simpa using h4)]

/-- The font left by the loop is one of the three registered families when the
initial font is. -/
theorem renderTextMarks_font_mem (font color : String) (marks : List Mark)
    (h : font = "regular" ∨ font = "bold" ∨ font = "italic") :
    (renderTextMarks font color marks).1 = "regular" ∨
      (renderTextMarks font color marks).1 = "bold" ∨
      (renderTextMarks font color marks).1 = "italic" := by
  induction marks generalizing font color with
  | nil => exact h
  | cons mark rest ih =>
    simp only [renderTextMarks]
    split
    · exact ih _ _ (Or.inr (Or.inl rfl))
    · exact ih _ _ (Or.inr (Or.inr rfl))
    · exact ih _ _ h
    · exact ih _ _ h
    · exact ih _ _ h

theorem renderText_calls (pdf : GoPdf) (text : String) (marks : List Mark) :
    (renderText pdf text marks).1.calls = pdf.calls ++ textCalls text marks := by
  simp only [renderText, textCalls, Cell_calls]
  split <;> simp [SetTextColor_calls, SetFont_calls]

theorem renderText_err (pdf : GoPdf) (text : String) (marks : List Mark) :
    (renderText pdf text marks).2 = none := rfl

/-! ## Headings, empty list items and the end-to-end example -/

/-- C1 (defect of the code): for the level-1 heading whose only child is the
unmarked leaf "Title", `renderHeading` selects bold at 16pt and `renderText`
then selects regular at 12pt before the cell, so the text is drawn regular at
12pt and not in the heading font. -/
theorem renderHeading_title_drawn_regular :
    (renderHeading (GoPdf.new okBackend) (headingNode 1 [textLeaf "Title" []])).1.calls =
        [Call.SetFont "bold" "" 16, Call.SetFont "regular" "" 12, Call.SetTextColor 0 0 0,
         Call.Cell "Title", Call.Br 20] ∧
      (renderHeading (GoPdf.new okBackend) (headingNode 1 [textLeaf "Title" []])).1.cells =
        [{ text := "Title", family := "regular", size := 12, color := (0, 0, 0) }] ∧
      (renderHeading (GoPdf.new okBackend)
          (headingNode 3 [textLeaf "Deep" [plainMark "italic"]])).1.cells =
        [{ text := "Deep", family := "italic", size := 12, color := (0, 0, 0) }] := by
  decide

/-- C2 (defect of the code): a bullet list whose first child is a list_item
with an empty content makes `renderList` panic on `child.Content[0]` right
after the marker; the next item is never rendered and `NewPdfDocument` does
not return. -/
theorem renderList_empty_item_panics :
    (renderList (GoPdf.new okBackend)
          (block "bullet_list"
            [block "list_item" [], block "list_item" [block "paragraph" [textLeaf "next" []]]])
          "bullet").2 = Outcome.panicked "index out of range [0] with length 0" ∧
      (renderList (GoPdf.new okBackend)
          (block "bullet_list"
            [block "list_item" [], block "list_item" [block "paragraph" [textLeaf "next" []]]])
          "bullet").1.calls = [Call.SetX 20, Call.Cell bulletMarker] ∧
      (NewPdfDocument okBackend [block "ordered_list" [block "list_item" []]]).2 =
        DocOutcome.panicked "index out of range [0] with length 0" := by
  decide

/-- C3 (defect of the code): on the example document the render loop issues,
as font selections, text cells and breaks, bold@16, regular@12, "Title",
break, regular@12, "Hello ", bold@12, "world", break: the leaf of the heading
re-selects regular@12 between the heading font and the cell "Title", so the
sequence is not the one of the specification. No node fails and the document
is finalised. -/
theorem exampleDocument_loop_calls :
    (renderNodes (GoPdf.new okBackend) exampleDocument).1.calls =
        [Call.SetFont "bold" "" 16, Call.SetFont "regular" "" 12, Call.SetTextColor 0 0 0,
         Call.Cell "Title", Call.Br 20,
         Call.SetFont "regular" "" 12, Call.SetTextColor 0 0 0, Call.Cell "Hello ",
         Call.SetFont "bold" "" 12, Call.SetTextColor 0 0 0, Call.Cell "world", Call.Br 20] ∧
      (renderNodes (GoPdf.new okBackend) exampleDocument).1.calls.filter Call.isFontCellBreak ≠
        [Call.SetFont "bold" "" 16, Call.Cell "Title", Call.Br 20,
         Call.SetFont "regular" "" 12, Call.Cell "Hello ",
         Call.SetFont "bold" "" 12, Call.Cell "world", Call.Br 20] ∧
      (renderNodes (GoPdf.new okBackend) exampleDocument).2 = Outcome.returned none ∧
      (NewPdfDocument okBackend exampleDocument).2 = DocOutcome.returned (some []) none := by
  decide

/-! ## Style resolution in `renderText` -/

/-- C4: the family that `renderText` passes to `SetFont` is the type of the last
mark that is bold or italic, and "regular" when there is none; it is always
one of "regular", "bold", "italic"; `[bold, italic]` selects "italic" and
`[italic, bold]` selects "bold", whatever the attributes of the marks. -/
theorem renderText_font_last_mark (pdf : GoPdf) (text : String) (marks : List Mark)
    (a b : Attributes) :
    (∃ colorCall,
        (renderText pdf text marks).1.calls =
          pdf.calls ++
            [Call.SetFont
                (((marks.filter (fun m => m.Type_ = "bold" ∨ m.Type_ = "italic")).getLast?.map
                  (fun m => m.Type_)).getD "regular") "" 12,
              colorCall, Call.Cell text]) ∧
      (((marks.filter (fun m => m.Type_ = "bold" ∨ m.Type_ = "italic")).getLast?.map
            (fun m => m.Type_)).getD "regular" ∈ ["regular", "bold", "italic"]) ∧
      (renderText pdf text [⟨"bold", a⟩, ⟨"italic", b⟩]).1.calls =
        pdf.calls ++ [Call.SetFont "italic" "" 12, Call.SetTextColor 0 0 0, Call.Cell text] ∧
      (renderText pdf text [⟨"italic", a⟩, ⟨"bold", b⟩]).1.calls =
        pdf.calls ++ [Call.SetFont "bold" "" 12, Call.SetTextColor 0 0 0, Call.Cell text] := by
  refine ⟨⟨if (renderTextMarks "regular" "black" marks).2 = "blue" then Call.SetTextColor 0 0 255
      else Call.SetTextColor 0 0 0, ?_⟩, ?_, ?_, ?_⟩
  · rw [renderText_calls, textCalls, renderTextMarks_font]
  · rw [← renderTextMarks_font "regular" "black" marks]
    have h := renderTextMarks_font_mem "regular" "black" marks (Or.inl rfl)
    simpa using h
  · rw [renderText_calls]
    simp [textCalls, renderTextMarks]
  · rw [renderText_calls]
    simp [textCalls, renderTextMarks]

/-- C5: `renderText` selects the colour (0,0,255) exactly when the last
textColor mark of the list carries the colour "blue", and (0,0,0) otherwise
(no textColor mark, "", "Blue", "red", ...); it returns no error. -/
theorem renderText_color_blue_iff (pdf : GoPdf) (text : String) (marks : List Mark) :
    (∃ font,
        (renderText pdf text marks).1.calls =
          pdf.calls ++
            [Call.SetFont font "" 12,
              if (marks.filter (fun m => m.Type_ = "textColor")).getLast?.map
                  (fun m => m.Attrs.Color) = some "blue"
              then Call.SetTextColor 0 0 255 else Call.SetTextColor 0 0 0,
              Call.Cell text]) ∧
      (renderText pdf text marks).2 = none ∧
      (renderText pdf text [colorMark "blue"]).1.calls =
        pdf.calls ++ [Call.SetFont "regular" "" 12, Call.SetTextColor 0 0 255, Call.Cell text] ∧
      (renderText pdf text [colorMark "blue", colorMark ""]).1.calls =
        pdf.calls ++ [Call.SetFont "regular" "" 12, Call.SetTextColor 0 0 0, Call.Cell text] ∧
      (renderText pdf text [colorMark "Blue"]).1.calls =
        pdf.calls ++ [Call.SetFont "regular" "" 12, Call.SetTextColor 0 0 0, Call.Cell text] ∧
      (renderText pdf text [colorMark "red"]).1.calls =
        pdf.calls ++ [Call.SetFont "regular" "" 12, Call.SetTextColor 0 0 0, Call.Cell text] := by
  refine ⟨⟨(renderTextMarks "regular" "black" marks).1, ?_⟩, rfl, ?_, ?_, ?_, ?_⟩
  · rw [renderText_calls, textCalls, renderTextMarks_color]
    cases h : ((marks.filter (fun m => m.Type_ = "textColor")).getLast?.map
        (fun m => m.Attrs.Color)) with
    | none => simp
    | some c => simp
  · rw [renderText_calls]
    simp [textCalls, renderTextMarks, colorMark]
  · rw [renderText_calls]
    simp [textCalls, renderTextMarks, colorMark]
  · rw [renderText_calls]
    simp [textCalls, renderTextMarks, colorMark]
  · rw [renderText_calls]
    simp [textCalls, renderTextMarks, colorMark]

/-- C6: with an empty mark list `renderText` issues exactly
`SetFont("regular", "", 12)`, `SetTextColor(0, 0, 0)`, `Cell(text)`, in that
order, and returns no error. -/
theorem renderText_no_marks (pdf : GoPdf) (text : String) :
    (renderText pdf text []).1.calls =
        pdf.calls ++ [Call.SetFont "regular" "" 12, Call.SetTextColor 0 0 0, Call.Cell text] ∧
      (renderText pdf text []).2 = none := by
  refine ⟨?_, rfl⟩
  rw [renderText_calls]
  simp [textCalls, renderTextMarks]

/-! ## Lemmas on paragraphs, lists and the document loop -/

theorem renderParagraphLoop_calls (pdf : GoPdf) (children : List ProseMirrorNode) :
    (renderParagraphLoop pdf children).1.calls =
        pdf.calls ++ (children.filter (fun child => child.Text ≠ "")).flatMap
          (fun child => textCalls child.Text child.Marks) ∧
      (renderParagraphLoop pdf children).2 = none := by
  induction children generalizing pdf with
  | nil => simp [renderParagraphLoop]
  | cons child rest ih =>
    by_cases h : child.Text = ""
    · simp only [renderParagraphLoop, h, ne_eq, not_true_eq_false, if_false]
      simpa [List.filter_cons, h] using ih pdf
    · have hr : renderText pdf child.Text child.Marks =
          ((renderText pdf child.Text child.Marks).1, none) := rfl
      simp only [renderParagraphLoop, ne_eq, h, not_false_eq_true, if_true]
      rw [hr]
      simp only
      obtain ⟨h1, h2⟩ := ih (renderText pdf child.Text child.Marks).1
      refine ⟨?_, h2⟩
      rw [h1, renderText_calls]
      simp [List.filter_cons, h, List.flatMap_cons]

theorem renderParagraph_calls (pdf : GoPdf) (node : ProseMirrorNode) :
    (renderParagraph pdf node).1.calls = pdf.calls ++ paragraphCalls node ∧
      (renderParagraph pdf node).2 = none := by
  obtain ⟨h1, h2⟩ := renderParagraphLoop_calls pdf node.Content
  have hr : renderParagraphLoop pdf node.Content =
      ((renderParagraphLoop pdf node.Content).1, none) := by
    rw [← h2]
  unfold renderParagraph
  rw [hr]
  simp only [Br_calls, h1, paragraphCalls, List.append_assoc, and_self]

theorem markerCells_of_no_SetX (l rest : List Call) (h : ∀ c ∈ l, ∀ x, c ≠ Call.SetX x) :
    markerCells (l ++ rest) = markerCells rest := by
  induction l with
  | nil => rfl
  | cons c l ih =>
    have hc := h c (List.mem_cons_self _ _)
    have hl := ih (fun d hd => h d (List.mem_cons_of_mem _ hd))
    cases c <;> first | exact absurd rfl (hc _) | simpa [markerCells] using hl
theorem paragraphCalls_no_SetX (node : ProseMirrorNode) :
    ∀ c ∈ paragraphCalls node, ∀ x, c ≠ Call.SetX x := by
  intro c hc x
  simp only [paragraphCalls, textCalls, List.mem_append, List.mem_flatMap, List.mem_cons,
    List.mem_singleton, List.not_mem_nil, or_false] at hc
  rcases hc with ⟨child, _, h | h | h⟩ | h
  · rw [h]; simp
  · rw [h]; split <;> simp
  · rw [h]; simp
  · rw [h]; simp

theorem renderListLoop_ordered_calls (pdf : GoPdf) (i : Nat) (children : List ProseMirrorNode)
    (h : ∀ c ∈ children, c.Type_ = "list_item" → c.Content ≠ []) :
    (renderListLoop pdf "ordered" i children).1.calls =
        pdf.calls ++ (children.enumFrom i).flatMap (fun p => orderedItemCalls p.1 p.2) ∧
      (renderListLoop pdf "ordered" i children).2 = Outcome.returned none := by
  induction children generalizing pdf i with
  | nil => simp [renderListLoop]
  | cons child rest ih =>
    have hrest := fun q j => ih q j (fun c hc => h c (List.mem_cons_of_mem _ hc))
    by_cases ht : child.Type_ = "list_item"
    · have hne := h child (List.mem_cons_self _ _) ht
      obtain ⟨first, more, hcontent⟩ := List.exists_cons_of_ne_nil hne
      simp only [renderListLoop, ht, if_true, hcontent]
      obtain ⟨h1, h2⟩ := hrest (renderParagraph ((pdf.SetX 20).Cell (orderedMarker (i + 1))).1 first).1 (i + 1)
      refine ⟨?_, h2⟩
      rw [h1, (renderParagraph_calls _ _).1, Cell_calls, SetX_calls]
      simp [List.enumFrom_cons, List.flatMap_cons, orderedItemCalls, ht, hcontent, orderedMarker]
    · simp only [renderListLoop, ht, if_false]
      obtain ⟨h1, h2⟩ := hrest pdf (i + 1)
      refine ⟨?_, h2⟩
      rw [h1]
      simp [List.enumFrom_cons, List.flatMap_cons, orderedItemCalls, ht]

theorem markerCells_orderedItemCalls (i : Nat) (children : List ProseMirrorNode) :
    markerCells ((children.enumFrom i).flatMap (fun p => orderedItemCalls p.1 p.2)) =
      ((children.enumFrom i).filter (fun p => p.2.Type_ = "list_item")).map
        (fun p => toString (p.1 + 1) ++ ". ") := by
  induction children generalizing i with
  | nil => rfl
  | cons child rest ih =>
    rw [List.enumFrom_cons, List.flatMap_cons, List.filter_cons]
    by_cases ht : child.Type_ = "list_item"
    · have e1 : orderedItemCalls i child = Call.SetX 20 :: Call.Cell (toString (i + 1) ++ ". ") ::
          (child.Content.head?.map paragraphCalls).getD [] := by
        simp [orderedItemCalls, ht]
      simp only [e1, ht, decide_True, if_true, List.cons_append, markerCells, List.map_cons]
      congr 1
      rw [markerCells_of_no_SetX _ _ ?_, ih]
      cases child.Content.head? with
      | none => simp
      | some b => simpa using paragraphCalls_no_SetX b
    · have e1 : orderedItemCalls i child = [] := by simp [orderedItemCalls, ht]
      simp only [e1, ht, decide_False, List.nil_append, ih]
      simp
theorem renderParagraph_congr (pdf : GoPdf) (a b : ProseMirrorNode) (h : a.Content = b.Content) :
    renderParagraph pdf a = renderParagraph pdf b := by
  unfold renderParagraph
  rw [h]

theorem renderListLoop_replace (listType : String) (x y : ProseMirrorNode)
    (hxy : ∀ pdf i rest,
      renderListLoop pdf listType i (x :: rest) = renderListLoop pdf listType i (y :: rest))
    (pdf : GoPdf) (i : Nat) (pre post : List ProseMirrorNode) :
    renderListLoop pdf listType i (pre ++ x :: post) =
      renderListLoop pdf listType i (pre ++ y :: post) := by
  induction pre generalizing pdf i with
  | nil => exact hxy pdf i post
  | cons p pre ih =>
    simp only [List.cons_append, renderListLoop]
    split
    · split
      · rfl
      · exact ih _ _
    · exact ih _ _

theorem renderNodes_skip (pdf : GoPdf) (node : ProseMirrorNode)
    (h : ∀ q, renderNode q node = (q, Outcome.returned none))
    (pre rest : List ProseMirrorNode) :
    renderNodes pdf (pre ++ node :: rest) = renderNodes pdf (pre ++ rest) := by
  induction pre generalizing pdf with
  | nil => simp [renderNodes, h]
  | cons p pre ih =>
    simp only [List.cons_append, renderNodes]
    split
    · exact ih _
    · rfl
    · rfl

theorem renderNode_other (pdf : GoPdf) (node : ProseMirrorNode)
    (h1 : node.Type_ ≠ "paragraph") (h2 : node.Type_ ≠ "heading")
    (h3 : node.Type_ ≠ "bullet_list") (h4 : node.Type_ ≠ "ordered_list") :
    renderNode pdf node = (pdf, Outcome.returned none) := by
  unfold renderNode
  split
  · next h => exact absurd h h1
  · next h => exact absurd h h2
  · next h => exact absurd h h3
  · next h => exact absurd h h4
  · rfl

theorem filter_isCell_textCalls (children : List ProseMirrorNode) :
    ((children.flatMap (fun child => textCalls child.Text child.Marks)).filter
      Call.isCell).length = children.length := by
  induction children with
  | nil => rfl
  | cons child rest ih =>
    rw [List.flatMap_cons, List.filter_append, List.length_append, ih, List.length_cons,
      Nat.add_comm]
    congr 1
    unfold textCalls
    split <;> rfl

theorem count_Br_textCalls (children : List ProseMirrorNode) :
    (children.flatMap (fun child => textCalls child.Text child.Marks)).count (Call.Br 20) = 0 := by
  induction children with
  | nil => rfl
  | cons child rest ih =>
    rw [List.flatMap_cons, List.count_append, ih]
    unfold textCalls
    split <;> rfl

theorem reachedChildren_initial (children : List ProseMirrorNode) :
    reachedChildren children <+: children := by
  induction children with
  | nil => exact List.prefix_refl _
  | cons child rest ih =>
    unfold reachedChildren
    split
    · exact List.prefix_iff_eq_take.mpr rfl
    · exact (List.prefix_cons_inj child).mpr ih

theorem reachedChildren_eq_self (children : List ProseMirrorNode)
    (h : ∀ c ∈ children, c.Type_ = "list_item" → c.Content ≠ []) :
    reachedChildren children = children := by
  induction children with
  | nil => rfl
  | cons child rest ih =>
    have hrest := ih (fun c hc => h c (List.mem_cons_of_mem _ hc))
    have hchild : ¬(child.Type_ = "list_item" ∧ child.Content.isEmpty = true) := by
      rintro ⟨ht, he⟩
      exact h child (List.mem_cons_self _ _) ht (List.isEmpty_iff.mp he)
    simp only [reachedChildren, hchild, if_false, hrest]

theorem renderListLoop_ordered_reached (pdf : GoPdf) (i : Nat)
    (children : List ProseMirrorNode) :
    (renderListLoop pdf "ordered" i children).1.calls =
      pdf.calls ++
        ((reachedChildren children).enumFrom i).flatMap (fun p => orderedItemCalls p.1 p.2) := by
  induction children generalizing pdf i with
  | nil => simp [renderListLoop, reachedChildren]
  | cons child rest ih =>
    by_cases ht : child.Type_ = "list_item"
    · cases hcontent : child.Content with
      | nil =>
        simp [renderListLoop, reachedChildren, ht, hcontent, Cell_calls, SetX_calls,
          List.enumFrom_cons, orderedItemCalls, orderedMarker]
      | cons first more =>
        have hchild : ¬(child.Type_ = "list_item" ∧ child.Content.isEmpty = true) := by
          rw [hcontent]
          simp
        simp only [renderListLoop, ht, if_true, hcontent, reachedChildren, hchild, if_false]
        rw [← hcontent, ih, (renderParagraph_calls _ _).1, Cell_calls, SetX_calls]
        simp [List.enumFrom_cons, orderedItemCalls, ht, hcontent, orderedMarker]
    · have hchild : ¬(child.Type_ = "list_item" ∧ child.Content.isEmpty = true) :=
        fun hc => ht hc.1
      simp only [renderListLoop, ht, if_false, reachedChildren, hchild]
      rw [ih]
      simp [List.enumFrom_cons, orderedItemCalls, ht]

theorem enum_filter_map_initial (xs ys : List ProseMirrorNode) (hxy : xs <+: ys) :
    (xs.enum.filter (fun p => p.2.Type_ = "list_item")).map
        (fun p => toString (p.1 + 1) ++ ". ") <+:
      (ys.enum.filter (fun p => p.2.Type_ = "list_item")).map
        (fun p => toString (p.1 + 1) ++ ". ") := by
  obtain ⟨t, rfl⟩ := hxy
  unfold List.enum
  rw [List.enumFrom_append, List.filter_append, List.map_append]
  exact List.prefix_append _ _

/-! ## Lists, paragraphs and unknown nodes -/

/-- C7: on every ordered list `renderList` issues, for each child it gets to
(all children up to and including the first list_item with an empty content)
nothing when the child is not a list_item and otherwise `SetX(20)`, the marker
cell `"{i+1}. "` with `i` the index of the child among all the children, and
the first content block as a paragraph; so the markers emitted are the
1-based positions of the list items reached, a prefix of the positions of all
the list items. When every list_item has a content block all children are
reached, the list returns nil and the markers are the positions of all the
list items: `"1. "`, ..., `"n. "` when the children are exactly `n` list
items. -/
theorem renderList_ordered_markers (pdf : GoPdf) (node : ProseMirrorNode) :
    (renderList pdf node "ordered").1.calls =
        pdf.calls ++
          (reachedChildren node.Content).enum.flatMap (fun p => orderedItemCalls p.1 p.2) ∧
      reachedChildren node.Content <+: node.Content ∧
      markerCells ((renderList pdf node "ordered").1.calls.drop pdf.calls.length) =
        ((reachedChildren node.Content).enum.filter (fun p => p.2.Type_ = "list_item")).map
          (fun p => toString (p.1 + 1) ++ ". ") ∧
      markerCells ((renderList pdf node "ordered").1.calls.drop pdf.calls.length) <+:
        (node.Content.enum.filter (fun p => p.2.Type_ = "list_item")).map
          (fun p => toString (p.1 + 1) ++ ". ") ∧
      ((∀ c ∈ node.Content, c.Type_ = "list_item" → c.Content ≠ []) →
        (renderList pdf node "ordered").1.calls =
            pdf.calls ++ node.Content.enum.flatMap (fun p => orderedItemCalls p.1 p.2) ∧
          (renderList pdf node "ordered").2 = Outcome.returned none ∧
          markerCells ((renderList pdf node "ordered").1.calls.drop pdf.calls.length) =
            (node.Content.enum.filter (fun p => p.2.Type_ = "list_item")).map
              (fun p => toString (p.1 + 1) ++ ". ")) ∧
      ((∀ c ∈ node.Content, c.Type_ = "list_item" ∧ c.Content ≠ []) →
        markerCells ((renderList pdf node "ordered").1.calls.drop pdf.calls.length) =
          (List.range node.Content.length).map (fun i => toString (i + 1) ++ ". ")) := by
  have hcalls := renderListLoop_ordered_reached pdf 0 node.Content
  have hmarkers :
      markerCells ((renderList pdf node "ordered").1.calls.drop pdf.calls.length) =
        ((reachedChildren node.Content).enum.filter (fun p => p.2.Type_ = "list_item")).map
          (fun p => toString (p.1 + 1) ++ ". ") := by
    unfold renderList
    rw [hcalls, List.drop_left]
    exact markerCells_orderedItemCalls 0 (reachedChildren node.Content)
  have hfull : (∀ c ∈ node.Content, c.Type_ = "list_item" → c.Content ≠ []) →
      markerCells ((renderList pdf node "ordered").1.calls.drop pdf.calls.length) =
        (node.Content.enum.filter (fun p => p.2.Type_ = "list_item")).map
          (fun p => toString (p.1 + 1) ++ ". ") := by
    intro h
    rw [hmarkers, reachedChildren_eq_self node.Content h]
  refine ⟨hcalls, reachedChildren_initial node.Content, hmarkers, ?_, ?_, ?_⟩
  · rw [hmarkers]
    exact enum_filter_map_initial _ _ (reachedChildren_initial node.Content)
  · intro h
    obtain ⟨h1, h2⟩ := renderListLoop_ordered_calls pdf 0 node.Content h
    exact ⟨h1, h2, hfull h⟩
  · intro hall
    rw [hfull (fun c hc _ => (hall c hc).2)]
    have hfilter : node.Content.enum.filter (fun p => p.2.Type_ = "list_item") =
        node.Content.enum := by
      rw [List.filter_eq_self]
      intro p hp
      have hmem : p.2 ∈ node.Content := by
        have := List.mem_map_of_mem Prod.snd hp
        rwa [List.enum_map_snd] at this
      simpa using (hall p.2 hmem).1
    rw [hfilter]
    have hmap : (node.Content.enum.map (fun p => toString (p.1 + 1) ++ ". ")) =
        (node.Content.enum.map Prod.fst).map (fun i => toString (i + 1) ++ ". ") := by
      rw [List.map_map]
      rfl
    rw [hmap, List.enum_map_fst]

/-- Witness of C7: on the list `[image, item, rule, item]` every list_item has a
content block and the markers are those of positions 2 and 4; on the list
`[item, item, item without content, item]` the markers emitted are those of
positions 1, 2 and 3. -/
theorem renderList_ordered_markers_witness :
    (∀ c ∈ orderedExample.Content, c.Type_ = "list_item" → c.Content ≠ []) ∧
      markerCells ((renderList (GoPdf.new okBackend) orderedExample "ordered").1.calls.drop
          (GoPdf.new okBackend).calls.length) =
        (orderedExample.Content.enum.filter (fun p => p.2.Type_ = "list_item")).map
          (fun p => toString (p.1 + 1) ++ ". ") ∧
      (orderedExample.Content.enum.filter (fun p => p.2.Type_ = "list_item")).map
          (fun p => toString (p.1 + 1) ++ ". ") = ["2. ", "4. "] ∧
      markerCells ((renderList (GoPdf.new okBackend) orderedPanicExample "ordered").1.calls.drop
          (GoPdf.new okBackend).calls.length) = ["1. ", "2. ", "3. "] :=
  ⟨by simp [orderedExample, block, ProseMirrorNode.Content, ProseMirrorNode.Type_],
    ((renderList_ordered_markers (GoPdf.new okBackend) orderedExample).2.2.2.2.1
      (by simp [orderedExample, block, ProseMirrorNode.Content, ProseMirrorNode.Type_])).2.2,
    by decide, by decide⟩

/-- C8: `renderParagraph` issues, for each child with a non-empty text and in
child order, the font selection, the colour selection and the text cell of
`renderText` on that child's text and marks, nothing for a child with an empty
text, and then one `Br(20)`; it returns no error; the number of text cells is
the number of children with a non-empty text, and a paragraph without such a
child issues only `Br(20)`. -/
theorem renderParagraph_children (pdf : GoPdf) (node : ProseMirrorNode) :
    (renderParagraph pdf node).1.calls =
        pdf.calls ++
          (node.Content.filter (fun child => child.Text ≠ "")).flatMap
            (fun child =>
              [Call.SetFont (renderTextMarks "regular" "black" child.Marks).1 "" 12,
                if (renderTextMarks "regular" "black" child.Marks).2 = "blue"
                then Call.SetTextColor 0 0 255 else Call.SetTextColor 0 0 0,
                Call.Cell child.Text]) ++ [Call.Br 20] ∧
      (renderParagraph pdf node).2 = none ∧
      (((renderParagraph pdf node).1.calls.drop pdf.calls.length).filter Call.isCell).length =
        (node.Content.filter (fun child => child.Text ≠ "")).length ∧
      ((renderParagraph pdf node).1.calls.drop pdf.calls.length).count (Call.Br 20) = 1 ∧
      ((∀ child ∈ node.Content, child.Text = "") →
        (renderParagraph pdf node).1.calls = pdf.calls ++ [Call.Br 20]) := by
  obtain ⟨h1, h2⟩ := renderParagraph_calls pdf node
  refine ⟨?_, h2, ?_, ?_, ?_⟩
  · rw [h1, paragraphCalls, List.append_assoc]
    rfl
  · rw [h1, List.drop_left, paragraphCalls, List.filter_append, List.length_append,
      filter_isCell_textCalls]
    rfl
  · rw [h1, List.drop_left, paragraphCalls, List.count_append, count_Br_textCalls]
    rfl
  · intro hall
    have hnil : node.Content.filter (fun child => child.Text ≠ "") = [] := by
      rw [List.filter_eq_nil_iff]
      intro child hchild
      simp [hall child hchild]
    rw [h1, paragraphCalls, hnil]
    rfl

/-- Witness of C8: a paragraph whose only child has an empty text issues only
`Br(20)`. -/
theorem renderParagraph_children_witness :
    (∀ child ∈ (block "paragraph" [textLeaf "" [plainMark "bold"]]).Content, child.Text = "") ∧
      (renderParagraph (GoPdf.new okBackend)
          (block "paragraph" [textLeaf "" [plainMark "bold"]])).1.calls =
        (GoPdf.new okBackend).calls ++ [Call.Br 20] :=
  ⟨by simp [block, textLeaf, ProseMirrorNode.Content, ProseMirrorNode.Text],
    (renderParagraph_children (GoPdf.new okBackend)
      (block "paragraph" [textLeaf "" [plainMark "bold"]])).2.2.2.2
      (by simp [block, textLeaf, ProseMirrorNode.Content, ProseMirrorNode.Text])⟩

/-- C9: on a node whose type is none of "paragraph", "heading", "bullet_list",
"ordered_list", `renderNode` leaves the canvas as it is (no call issued) and
returns no error, whatever the content, text, marks and attributes; the loop
of `NewPdfDocument` and `NewPdfDocument` itself behave as if the node were not
in the document. -/
theorem renderNode_unknown_type (pdf : GoPdf) (node : ProseMirrorNode)
    (backend : Backend) (pre rest : List ProseMirrorNode)
    (h1 : node.Type_ ≠ "paragraph") (h2 : node.Type_ ≠ "heading")
    (h3 : node.Type_ ≠ "bullet_list") (h4 : node.Type_ ≠ "ordered_list") :
    renderNode pdf node = (pdf, Outcome.returned none) ∧
      renderNodes pdf (node :: rest) = renderNodes pdf rest ∧
      renderNodes pdf (pre ++ node :: rest) = renderNodes pdf (pre ++ rest) ∧
      NewPdfDocument backend (pre ++ node :: rest) = NewPdfDocument backend (pre ++ rest) := by
  have hskip := fun q => renderNode_other q node h1 h2 h3 h4
  refine ⟨hskip pdf, renderNodes_skip pdf node hskip [] rest,
    renderNodes_skip pdf node hskip pre rest, ?_⟩
  unfold NewPdfDocument
  simp only [renderNodes_skip _ node hskip pre rest]

/-- Witness of C9: a "table" node with content, text, marks and attributes,
between two paragraphs. -/
theorem renderNode_unknown_type_witness :
    renderNode (GoPdf.new okBackend)
          (.mk "table" [block "paragraph" [textLeaf "cell" []]] "t" [plainMark "bold"]
            ⟨2, "blue"⟩) =
        (GoPdf.new okBackend, Outcome.returned none) ∧
      (NewPdfDocument okBackend tableExample).1.calls =
        (NewPdfDocument okBackend
          [block "paragraph" [textLeaf "a" []], block "paragraph" [textLeaf "b" []]]).1.calls :=
  ⟨(renderNode_unknown_type (GoPdf.new okBackend)
      (.mk "table" [block "paragraph" [textLeaf "cell" []]] "t" [plainMark "bold"] ⟨2, "blue"⟩)
      okBackend [] [] (by decide) (by decide) (by decide) (by decide)).1,
    by decide⟩

/-! ## Lemmas on machine arithmetic, ignored marks and headings -/

theorem log2_of_bounds (a k : Nat) (h1 : 2 ^ k ≤ a) (h2 : a < 2 ^ (k + 1)) : Nat.log2 a = k := by
  rw [Nat.log2_eq_log_two]
  rcases Nat.eq_zero_or_pos k with hk | hk
  · subst hk
    have ha : a = 1 := by simp at h1 h2; omega
    subst ha
    simp
  · exact (Nat.log_eq_iff (Or.inl (Nat.pos_iff_ne_zero.mp hk))).2 ⟨h1, h2⟩

theorem roundFloat64_of_lt (v : Int) (h : v.natAbs < 2 ^ 53) : roundFloat64 v = v := by
  unfold roundFloat64
  simp only [h, if_true]

theorem roundFloat64_even (v : Int) (heven : v % 2 = 0) (hle : v.natAbs ≤ 2 ^ 54) :
    roundFloat64 v = v := by
  by_cases hlt : v.natAbs < 2 ^ 53
  · exact roundFloat64_of_lt v hlt
  · have hev : v.natAbs % 2 = 0 := by omega
    unfold roundFloat64
    simp only [hlt, if_false]
    by_cases htop : v.natAbs = 2 ^ 54
    · have hlog : Nat.log2 (v.natAbs) = 54 := log2_of_bounds _ 54 (by omega) (by omega)
      have hq : v.natAbs / 2 ^ (54 - 52) * 2 ^ (54 - 52) = v.natAbs := by
        rw [htop]
        decide
      have hr : v.natAbs % 2 ^ (54 - 52) = 0 := by
        rw [htop]
        decide
      have hcond : ¬(2 ^ (54 - 52 - 1) < 0 ∨
          (0 = 2 ^ (54 - 52 - 1) ∧ v.natAbs / 2 ^ (54 - 52) % 2 = 1)) := by
        intro h
        rcases h with h | ⟨h, _⟩
        · exact absurd h (by decide)
        · exact absurd h (by decide)
      rw [hlog]
      simp only [hr, hcond, if_false, hq]
      split <;> omega
    · have hlog : Nat.log2 (v.natAbs) = 53 := log2_of_bounds _ 53 (by omega) (by omega)
      have hq : v.natAbs / 2 ^ (53 - 52) * 2 ^ (53 - 52) = v.natAbs := by
        show v.natAbs / 2 * 2 = v.natAbs
        omega
      have hr : v.natAbs % 2 ^ (53 - 52) = 0 := hev
      have hcond : ¬(2 ^ (53 - 52 - 1) < 0 ∨
          (0 = 2 ^ (53 - 52 - 1) ∧ v.natAbs / 2 ^ (53 - 52) % 2 = 1)) := by
        intro h
        rcases h with h | ⟨h, _⟩
        · exact absurd h (by decide)
        · exact absurd h (by decide)
      rw [hlog]
      simp only [hr, hcond, if_false, hq]
      split <;> omega

theorem wrapInt_of_bounds (v : Int) (h1 : -(2 ^ 63) ≤ v) (h2 : v < 2 ^ 63) : wrapInt v = v := by
  unfold wrapInt
  omega

theorem headingSize_exact (level : Int) (h1 : 9 - 2 ^ 53 ≤ level) (h2 : level ≤ 2 ^ 53) :
    roundFloat64 (18 - roundFloat64 (wrapInt (level * 2))) = 18 - 2 * level := by
  rw [wrapInt_of_bounds _ (by omega) (by omega),
    roundFloat64_even (level * 2) (by omega) (by omega),
    roundFloat64_even (18 - level * 2) (by omega) (by omega)]
  omega

theorem renderTextMarks_filter (font color : String) (marks : List Mark) :
    renderTextMarks font color
        (marks.filter (fun m => m.Type_ = "bold" ∨ m.Type_ = "italic" ∨ m.Type_ = "textColor")) =
      renderTextMarks font color marks := by
  induction marks generalizing font color with
  | nil => rfl
  | cons mark rest ih =>
    rw [List.filter_cons]
    by_cases hb : mark.Type_ = "bold"
    · simp only [hb, true_or, decide_True, if_true, renderTextMarks, ih]
    · by_cases hi : mark.Type_ = "italic"
      · simp only [hi, true_or, or_true, decide_True, if_true, renderTextMarks, ih]
      · by_cases hc : mark.Type_ = "textColor"
        · simp only [hc, or_true, decide_True, if_true, renderTextMarks, ih]
        · have hrest : renderTextMarks font color (mark :: rest) =
              renderTextMarks font color rest := by
            simp only [renderTextMarks]
            split
            · next h => exact absurd h hb
            · next h => exact absurd h hi
            · rfl
            · next h => exact absurd h hc
            · rfl
          simp only [hb, hi, hc, or_self, decide_False, if_false, Bool.false_eq_true, hrest, ih]

theorem renderHeadingLoop_calls (pdf : GoPdf) (children : List ProseMirrorNode) :
    (renderHeadingLoop pdf children).calls =
      pdf.calls ++ (children.filter (fun child => child.Text ≠ "")).flatMap
        (fun child => textCalls child.Text child.Marks) := by
  induction children generalizing pdf with
  | nil => simp [renderHeadingLoop]
  | cons child rest ih =>
    by_cases h : child.Text = ""
    · simp only [renderHeadingLoop, h, ne_eq, not_true_eq_false, if_false]
      simpa [List.filter_cons, h] using ih pdf
    · simp only [renderHeadingLoop, ne_eq, h, not_false_eq_true, if_true]
      rw [ih, renderText_calls]
      simp [List.filter_cons, h, List.flatMap_cons]

theorem renderHeading_calls (pdf : GoPdf) (node : ProseMirrorNode) :
    (renderHeading pdf node).1.calls =
        pdf.calls ++
          Call.SetFont "bold" "" (roundFloat64 (18 - roundFloat64 (wrapInt (node.Attrs.Level * 2))))
            :: paragraphCalls node ∧
      (renderHeading pdf node).2 = none := by
  refine ⟨?_, rfl⟩
  simp only [renderHeading, Br_calls, renderHeadingLoop_calls, SetFont_calls, paragraphCalls,
    List.append_assoc, List.singleton_append, List.cons_append, List.nil_append]

theorem roundFloat64_above_even : roundFloat64 (2 ^ 54 + 2) = 2 ^ 54 := by
  have hlog : Nat.log2 ((2 ^ 54 + 2 : Int).natAbs) = 54 :=
    log2_of_bounds _ 54 (by decide) (by decide)
  unfold roundFloat64
  simp only [hlog]
  decide

theorem headingSize_above_range :
    roundFloat64 (18 - roundFloat64 (wrapInt ((2 ^ 53 + 1) * 2))) = 18 - 2 ^ 54 := by
  have h1 : wrapInt ((2 ^ 53 + 1) * 2) = 2 ^ 54 + 2 := by decide
  rw [h1, roundFloat64_above_even]
  exact roundFloat64_even _ (by decide) (by decide)

theorem headingSize_below_range :
    roundFloat64 (18 - roundFloat64 (wrapInt ((8 - 2 ^ 53) * 2))) = 2 ^ 54 := by
  have h1 : wrapInt ((8 - 2 ^ 53) * 2) = 16 - 2 ^ 54 := by decide
  rw [h1, roundFloat64_even (16 - 2 ^ 54) (by decide) (by decide)]
  have h2 : (18 : Int) - (16 - 2 ^ 54) = 2 ^ 54 + 2 := by decide
  rw [h2, roundFloat64_above_even]

/-! ## Heading sizes and ignored marks -/

/-- C13, counterexample: at level `-2^63` the product `level*2` wraps to 0 in
the 64-bit `int`, so the first call is `SetFont("bold", "", 18)`: the size is
not above 18 and is not `18 - 2*level`. -/
theorem renderHeading_min_level_size :
    (renderHeading (GoPdf.new okBackend) (headingNode (-2 ^ 63) [])).1.calls.head? =
        some (Call.SetFont "bold" "" 18) ∧
      (renderHeading (GoPdf.new okBackend) (headingNode (-2 ^ 63) [])).1.calls.head? ≠
        some (Call.SetFont "bold" "" (18 - 2 * (-2 ^ 63))) := by
  decide

/-- C13, amended: at every level the first call of `renderHeading` is
`SetFont("bold", "", s)` with `s` the float64 `18` minus the float64 of
`level*2` computed in 64 bits, without clamping. For a level `L` with
`9 - 2^53 ≤ L ≤ 2^53` this is `SetFont("bold", "", 18 - 2*L)`: 18, 16, 12, 0,
-2 at levels 0, 1, 3, 9, 10, and above 18 at a negative level. Just outside that
range the size is no longer `18 - 2*L`: it is `18 - 2^54` at `2^53 + 1` and
`2^54` at `8 - 2^53`. -/
theorem renderHeading_first_call (pdf : GoPdf) (node : ProseMirrorNode)
    (content : List ProseMirrorNode) :
    (∃ tail, (renderHeading pdf node).1.calls =
        pdf.calls ++
          Call.SetFont "bold" ""
              (roundFloat64 (18 - roundFloat64 (wrapInt (node.Attrs.Level * 2)))) :: tail) ∧
      (9 - 2 ^ 53 ≤ node.Attrs.Level → node.Attrs.Level ≤ 2 ^ 53 →
        (∃ tail, (renderHeading pdf node).1.calls =
          pdf.calls ++ Call.SetFont "bold" "" (18 - 2 * node.Attrs.Level) :: tail) ∧
        (node.Attrs.Level < 0 → 18 < 18 - 2 * node.Attrs.Level)) ∧
      (∃ tail, (renderHeading pdf (headingNode 0 content)).1.calls =
        pdf.calls ++ Call.SetFont "bold" "" 18 :: tail) ∧
      (∃ tail, (renderHeading pdf (headingNode 1 content)).1.calls =
        pdf.calls ++ Call.SetFont "bold" "" 16 :: tail) ∧
      (∃ tail, (renderHeading pdf (headingNode 3 content)).1.calls =
        pdf.calls ++ Call.SetFont "bold" "" 12 :: tail) ∧
      (∃ tail, (renderHeading pdf (headingNode 9 content)).1.calls =
        pdf.calls ++ Call.SetFont "bold" "" 0 :: tail) ∧
      (∃ tail, (renderHeading pdf (headingNode 10 content)).1.calls =
        pdf.calls ++ Call.SetFont "bold" "" (-2) :: tail) ∧
      (∃ tail, (renderHeading pdf (headingNode (2 ^ 53 + 1) content)).1.calls =
        pdf.calls ++ Call.SetFont "bold" "" (18 - 2 ^ 54) :: tail) ∧
      (∃ tail, (renderHeading pdf (headingNode (8 - 2 ^ 53) content)).1.calls =
        pdf.calls ++ Call.SetFont "bold" "" (2 ^ 54) :: tail) := by
  refine ⟨⟨_, (renderHeading_calls pdf node).1⟩, ?_,
    ⟨_, (renderHeading_calls pdf _).1⟩, ⟨_, (renderHeading_calls pdf _).1⟩,
    ⟨_, (renderHeading_calls pdf _).1⟩, ⟨_, (renderHeading_calls pdf _).1⟩,
    ⟨_, (renderHeading_calls pdf _).1⟩, ⟨paragraphCalls (headingNode (2 ^ 53 + 1) content), ?_⟩,
    ⟨paragraphCalls (headingNode (8 - 2 ^ 53) content), ?_⟩⟩
  · intro h1 h2
    refine ⟨⟨paragraphCalls node, ?_⟩, by omega⟩
    rw [(renderHeading_calls pdf node).1, headingSize_exact _ h1 h2]
  · rw [(renderHeading_calls pdf _).1]
    show _ ++ Call.SetFont "bold" ""
        (roundFloat64 (18 - roundFloat64 (wrapInt ((2 ^ 53 + 1) * 2)))) :: _ = _
    rw [headingSize_above_range]
  · rw [(renderHeading_calls pdf _).1]
    show _ ++ Call.SetFont "bold" ""
        (roundFloat64 (18 - roundFloat64 (wrapInt ((8 - 2 ^ 53) * 2)))) :: _ = _
    rw [headingSize_below_range]

/-- Witness of C13: a heading of level -4 is in the exact range and gets the
size 26, above 18. -/
theorem renderHeading_first_call_witness :
    (9 - 2 ^ 53 ≤ (headingNode (-4) [textLeaf "deep" []]).Attrs.Level ∧
        (headingNode (-4) [textLeaf "deep" []]).Attrs.Level ≤ 2 ^ 53) ∧
      (∃ tail,
        (renderHeading (GoPdf.new okBackend) (headingNode (-4) [textLeaf "deep" []])).1.calls =
          (GoPdf.new okBackend).calls ++
            Call.SetFont "bold" ""
              (18 - 2 * (headingNode (-4) [textLeaf "deep" []]).Attrs.Level) :: tail) ∧
      (18 : Int) - 2 * (headingNode (-4) [textLeaf "deep" []]).Attrs.Level = 26 :=
  ⟨⟨by decide, by decide⟩,
    ((renderHeading_first_call (GoPdf.new okBackend) (headingNode (-4) [textLeaf "deep" []])
      []).2.1 (by decide) (by decide)).1,
    by decide⟩

/-- C14: marks whose type is none of "bold", "italic", "textColor" (underline
and unrecognized types) have no effect: `renderText` gives the same canvas and
the same (nil) error on a mark list and on the list without them. -/
theorem renderText_ignores_other_marks (pdf : GoPdf) (text : String) (marks : List Mark)
    (a b : Attributes) :
    renderText pdf text
          (marks.filter
            (fun m => m.Type_ = "bold" ∨ m.Type_ = "italic" ∨ m.Type_ = "textColor")) =
        renderText pdf text marks ∧
      (renderText pdf text marks).2 = none ∧
      renderText pdf text [⟨"underline", a⟩, ⟨"strike", b⟩] = renderText pdf text [] := by
  refine ⟨?_, rfl, ?_⟩
  · simp only [renderText, renderTextMarks_filter]
  · have hmarks : renderTextMarks "regular" "black" [⟨"underline", a⟩, ⟨"strike", b⟩] =
        renderTextMarks "regular" "black" [] := rfl
    simp only [renderText, hmarks]

/-! ## Errors of the canvas and of the setup -/

/-- C11 (defect of the code): on a canvas where every `SetFont` and every
`Cell` reports an error, `renderNode` still returns nil on the heading and on
the paragraph of the example document, every call of the document is issued
up to `GetBytesPdfReturnErr`, and `NewPdfDocument` returns the artifact with a
nil error: the results of `SetFont` and `Cell` are discarded. -/
theorem canvas_errors_discarded :
    ((GoPdf.new failingBackend).SetFont "bold" "" 16).2 = some "SetFont failed" ∧
      ((GoPdf.new failingBackend).Cell "Title").2 = some "Cell failed" ∧
      (renderNode (GoPdf.new failingBackend) (headingNode 1 [textLeaf "Title" []])).2 =
        Outcome.returned none ∧
      (renderNodes (GoPdf.new failingBackend) exampleDocument).2 = Outcome.returned none ∧
      (NewPdfDocument failingBackend exampleDocument).1.calls =
        setupCalls ++ fontCalls ++
          [Call.SetFont "regular" "" 12,
           Call.SetFont "bold" "" 16, Call.SetFont "regular" "" 12, Call.SetTextColor 0 0 0,
           Call.Cell "Title", Call.Br 20,
           Call.SetFont "regular" "" 12, Call.SetTextColor 0 0 0, Call.Cell "Hello ",
           Call.SetFont "bold" "" 12, Call.SetTextColor 0 0 0, Call.Cell "world", Call.Br 20,
           Call.GetBytesPdfReturnErr] ∧
      (NewPdfDocument failingBackend exampleDocument).2 = DocOutcome.returned (some []) none := by
  decide

/-- C12: when `NewPdfDocument` returns an error the byte slice is nil; and when
the registration of the regular, the bold or the italic font fails,
`NewPdfDocument` returns that error with a nil slice right after the failed
registration: the calls issued are the setup and the registrations up to the
failed one, so no node is rendered. -/
theorem NewPdfDocument_all_or_nothing (backend : Backend) (content : List ProseMirrorNode)
    (bytes : Option (List Nat)) (err e : String) :
    ((NewPdfDocument backend content).2 = DocOutcome.returned bytes (some err) → bytes = none) ∧
      (backend.reject setupCalls (Call.AddTTFFont "regular" "./fonts/arial/ARIAL.TTF") = some e →
        (NewPdfDocument backend content).2 = DocOutcome.returned none (some e) ∧
          (NewPdfDocument backend content).1.calls = setupCalls ++ fontCalls.take 1) ∧
      (backend.reject setupCalls (Call.AddTTFFont "regular" "./fonts/arial/ARIAL.TTF") = none →
        backend.reject (setupCalls ++ fontCalls.take 1)
            (Call.AddTTFFont "bold" "./fonts/arial/ARIALBD.TTF") = some e →
        (NewPdfDocument backend content).2 = DocOutcome.returned none (some e) ∧
          (NewPdfDocument backend content).1.calls = setupCalls ++ fontCalls.take 2) ∧
      (backend.reject setupCalls (Call.AddTTFFont "regular" "./fonts/arial/ARIAL.TTF") = none →
        backend.reject (setupCalls ++ fontCalls.take 1)
            (Call.AddTTFFont "bold" "./fonts/arial/ARIALBD.TTF") = none →
        backend.reject (setupCalls ++ fontCalls.take 2)
            (Call.AddTTFFont "italic" "./fonts/arial/ARIALI.TTF") = some e →
        (NewPdfDocument backend content).2 = DocOutcome.returned none (some e) ∧
          (NewPdfDocument backend content).1.calls = setupCalls ++ fontCalls.take 3) := by
  refine ⟨?_, ?_, ?_, ?_⟩
  · intro h
    unfold NewPdfDocument at h
    simp only at h
    split at h
    · cases h; rfl
    · split at h
      · cases h; rfl
      · split at h
        · cases h; rfl
        · split at h
          · cases h
          · cases h; rfl
          · split at h
            · cases h; rfl
            · cases h
  · intro h1
    have h1' : backend.reject [Call.Start, Call.AddPage, Call.SetMargins 10 10 10 10]
        (Call.AddTTFFont "regular" "./fonts/arial/ARIAL.TTF") = some e := h1
    simp [NewPdfDocument, GoPdf.AddTTFFont, GoPdf.Start, GoPdf.AddPage, GoPdf.SetMargins,
      GoPdf.log, GoPdf.new, h1', setupCalls, fontCalls]
  · intro h1 h2
    have h1' : backend.reject [Call.Start, Call.AddPage, Call.SetMargins 10 10 10 10]
        (Call.AddTTFFont "regular" "./fonts/arial/ARIAL.TTF") = none := h1
    have h2' : backend.reject [Call.Start, Call.AddPage, Call.SetMargins 10 10 10 10,
        Call.AddTTFFont "regular" "./fonts/arial/ARIAL.TTF"]
        (Call.AddTTFFont "bold" "./fonts/arial/ARIALBD.TTF") = some e := h2
    simp [NewPdfDocument, GoPdf.AddTTFFont, GoPdf.Start, GoPdf.AddPage, GoPdf.SetMargins,
      GoPdf.log, GoPdf.new, h1', h2', setupCalls, fontCalls]
  · intro h1 h2 h3
    have h1' : backend.reject [Call.Start, Call.AddPage, Call.SetMargins 10 10 10 10]
        (Call.AddTTFFont "regular" "./fonts/arial/ARIAL.TTF") = none := h1
    have h2' : backend.reject [Call.Start, Call.AddPage, Call.SetMargins 10 10 10 10,
        Call.AddTTFFont "regular" "./fonts/arial/ARIAL.TTF"]
        (Call.AddTTFFont "bold" "./fonts/arial/ARIALBD.TTF") = none := h2
    have h3' : backend.reject [Call.Start, Call.AddPage, Call.SetMargins 10 10 10 10,
        Call.AddTTFFont "regular" "./fonts/arial/ARIAL.TTF",
        Call.AddTTFFont "bold" "./fonts/arial/ARIALBD.TTF"]
        (Call.AddTTFFont "italic" "./fonts/arial/ARIALI.TTF") = some e := h3
    simp [NewPdfDocument, GoPdf.AddTTFFont, GoPdf.Start, GoPdf.AddPage, GoPdf.SetMargins,
      GoPdf.log, GoPdf.new, h1', h2', h3', setupCalls, fontCalls]

/-- Witness of C12: when the bold face cannot be loaded, the example document
yields the error, no artifact, and only the setup and two registrations. -/
theorem NewPdfDocument_all_or_nothing_witness :
    (NewPdfDocument boldMissingBackend exampleDocument).2 =
        DocOutcome.returned none (some "font file not found") ∧
      (NewPdfDocument boldMissingBackend exampleDocument).1.calls =
        setupCalls ++ fontCalls.take 2 :=
  (NewPdfDocument_all_or_nothing boldMissingBackend exampleDocument none "" "font file not found").2.2.1
    (by decide) (by decide)

/-! ## The document loop and the trace of a heading -/

theorem renderNodes_append (pdf : GoPdf) (xs ys : List ProseMirrorNode)
    (hx : (renderNodes pdf xs).2 = Outcome.returned none) :
    renderNodes pdf (xs ++ ys) = renderNodes (renderNodes pdf xs).1 ys := by
  induction xs generalizing pdf with
  | nil => rfl
  | cons node rest ih =>
    simp only [List.cons_append, renderNodes] at hx ⊢
    split
    · next pdf1 h =>
      rw [h] at hx
      simp only at hx
      exact ih pdf1 hx
    · next pdf1 err h =>
      rw [h] at hx
      simp only at hx
      cases hx
    · next pdf1 msg h =>
      rw [h] at hx
      simp only at hx
      cases hx

/-- What a renderer adds to the call log, and how it ends, do not depend on the
canvas it starts from. -/
theorem renderListLoop_trace (p q : GoPdf) (listType : String) (i : Nat)
    (children : List ProseMirrorNode) :
    ∃ t, (renderListLoop p listType i children).1.calls = p.calls ++ t ∧
      (renderListLoop q listType i children).1.calls = q.calls ++ t ∧
      (renderListLoop p listType i children).2 = (renderListLoop q listType i children).2 := by
  induction children generalizing p q i with
  | nil => exact ⟨[], by simp [renderListLoop]⟩
  | cons child rest ih =>
    by_cases ht : child.Type_ = "list_item"
    · cases hcontent : child.Content with
      | nil =>
        simp only [renderListLoop, ht, if_true, hcontent]
        split
        · exact ⟨[Call.SetX 20, Call.Cell (orderedMarker (i + 1))], by
            simp [Cell_calls, SetX_calls]⟩
        · exact ⟨[Call.SetX 20, Call.Cell bulletMarker], by simp [Cell_calls, SetX_calls]⟩
      | cons first more =>
        simp only [renderListLoop, ht, if_true, hcontent]
        split
        · obtain ⟨t, h1, h2, h3⟩ := ih
            (renderParagraph ((p.SetX 20).Cell (orderedMarker (i + 1))).1 first).1
            (renderParagraph ((q.SetX 20).Cell (orderedMarker (i + 1))).1 first).1 (i + 1)
          refine ⟨Call.SetX 20 :: Call.Cell (orderedMarker (i + 1)) :: (paragraphCalls first ++ t),
            ?_, ?_, h3⟩
          · rw [h1, (renderParagraph_calls _ _).1, Cell_calls, SetX_calls]
            simp
          · rw [h2, (renderParagraph_calls _ _).1, Cell_calls, SetX_calls]
            simp
        · obtain ⟨t, h1, h2, h3⟩ := ih
            (renderParagraph ((p.SetX 20).Cell bulletMarker).1 first).1
            (renderParagraph ((q.SetX 20).Cell bulletMarker).1 first).1 (i + 1)
          refine ⟨Call.SetX 20 :: Call.Cell bulletMarker :: (paragraphCalls first ++ t),
            ?_, ?_, h3⟩
          · rw [h1, (renderParagraph_calls _ _).1, Cell_calls, SetX_calls]
            simp
          · rw [h2, (renderParagraph_calls _ _).1, Cell_calls, SetX_calls]
            simp
    · simp only [renderListLoop, ht, if_false]
      exact ih p q (i + 1)

theorem renderNode_trace (p q : GoPdf) (node : ProseMirrorNode) :
    ∃ t, (renderNode p node).1.calls = p.calls ++ t ∧
      (renderNode q node).1.calls = q.calls ++ t ∧
      (renderNode p node).2 = (renderNode q node).2 := by
  unfold renderNode
  split
  · exact ⟨paragraphCalls node, (renderParagraph_calls p node).1, (renderParagraph_calls q node).1,
      by simp [returns, (renderParagraph_calls p node).2, (renderParagraph_calls q node).2]⟩
  · exact ⟨_, (renderHeading_calls p node).1, (renderHeading_calls q node).1, rfl⟩
  · exact renderListLoop_trace p q "bullet" 0 node.Content
  · exact renderListLoop_trace p q "ordered" 0 node.Content
  · exact ⟨[], by simp⟩

theorem renderNode_delta (p q : GoPdf) (node : ProseMirrorNode) :
    (renderNode p node).1.calls =
        p.calls ++ (renderNode q node).1.calls.drop q.calls.length ∧
      (renderNode p node).2 = (renderNode q node).2 := by
  obtain ⟨t, h1, h2, h3⟩ := renderNode_trace p q node
  rw [h1, h2, List.drop_left]
  exact ⟨rfl, h3⟩

theorem renderNodes_trace (p q : GoPdf) (nodes : List ProseMirrorNode) :
    ∃ t, (renderNodes p nodes).1.calls = p.calls ++ t ∧
      (renderNodes q nodes).1.calls = q.calls ++ t ∧
      (renderNodes p nodes).2 = (renderNodes q nodes).2 := by
  induction nodes generalizing p q with
  | nil => exact ⟨[], by simp [renderNodes]⟩
  | cons node rest ih =>
    have htrace := renderNode_trace p q node
    simp only [renderNodes]
    cases hp : renderNode p node with
    | mk p1 op =>
      cases hq : renderNode q node with
      | mk q1 oq =>
        rw [hp, hq] at htrace
        obtain ⟨t, h1, h2, h3⟩ := htrace
        simp only at h1 h2 h3
        subst h3
        cases op with
        | returned err =>
          cases err with
          | none =>
            obtain ⟨t1, i1, i2, i3⟩ := ih p1 q1
            refine ⟨t ++ t1, ?_, ?_, i3⟩
            · simp only [i1, h1, List.append_assoc]
            · simp only [i2, h2, List.append_assoc]
          | some e => exact ⟨t, h1, h2, rfl⟩
        | panicked msg => exact ⟨t, h1, h2, rfl⟩

theorem renderNodes_delta (p q : GoPdf) (nodes : List ProseMirrorNode) :
    (renderNodes p nodes).1.calls =
        p.calls ++ (renderNodes q nodes).1.calls.drop q.calls.length ∧
      (renderNodes p nodes).2 = (renderNodes q nodes).2 := by
  obtain ⟨t, h1, h2, h3⟩ := renderNodes_trace p q nodes
  rw [h1, h2, List.drop_left]
  exact ⟨rfl, h3⟩

theorem renderNodes_flatMap (p q : GoPdf) (nodes : List ProseMirrorNode)
    (h : (renderNodes p nodes).2 = Outcome.returned none) :
    (renderNodes p nodes).1.calls =
      p.calls ++ nodes.flatMap (fun node => (renderNode q node).1.calls.drop q.calls.length) := by
  induction nodes generalizing p with
  | nil => simp [renderNodes]
  | cons node rest ih =>
    simp only [renderNodes] at h ⊢
    have hd := (renderNode_delta p q node).1
    cases hp : renderNode p node with
    | mk p1 op =>
      rw [hp] at h hd
      cases op with
      | returned err =>
        cases err with
        | none =>
          simp only at h hd ⊢
          rw [ih p1 h, hd, List.flatMap_cons, List.append_assoc]
        | some e =>
          simp only at h
          cases h
      | panicked msg =>
        simp only at h
        cases h

/-- C16: the loop of `NewPdfDocument` is a homomorphism on the calls: when
rendering `xs` returns without error or panic, rendering `xs ++ ys` is
rendering `ys` on the canvas left by `xs`, its calls are those of `xs` followed
by those of `ys` (which do not depend on the canvas `ys` is rendered on), and
the calls of `xs` are those of `renderNode` on each node once, in order; the
empty document issues no call. -/
theorem renderNodes_homomorphism (pdf q : GoPdf) (xs ys : List ProseMirrorNode)
    (hx : (renderNodes pdf xs).2 = Outcome.returned none) :
    renderNodes pdf (xs ++ ys) = renderNodes (renderNodes pdf xs).1 ys ∧
      (renderNodes pdf (xs ++ ys)).1.calls.drop pdf.calls.length =
        (renderNodes pdf xs).1.calls.drop pdf.calls.length ++
          (renderNodes q ys).1.calls.drop q.calls.length ∧
      (renderNodes pdf (xs ++ ys)).2 = (renderNodes q ys).2 ∧
      (renderNodes pdf xs).1.calls.drop pdf.calls.length =
        xs.flatMap (fun node => (renderNode q node).1.calls.drop q.calls.length) ∧
      renderNodes pdf [] = (pdf, Outcome.returned none) := by
  have happ := renderNodes_append pdf xs ys hx
  obtain ⟨d1, d2⟩ := renderNodes_delta (renderNodes pdf xs).1 q ys
  obtain ⟨d3, _⟩ := renderNodes_delta pdf pdf xs
  refine ⟨happ, ?_, ?_, ?_, rfl⟩
  · rw [happ, d1, d3, List.append_assoc, List.drop_left, List.drop_left]
  · rw [happ, d2]
  · rw [renderNodes_flatMap pdf q xs hx, List.drop_left]

/-- Witness of C16: the example document followed by a list, on the canvas of
`NewPdfDocument` and with the calls of the list taken on a fresh canvas. -/
theorem renderNodes_homomorphism_witness :
    (renderNodes ((GoPdf.new okBackend).SetFont "regular" "" 12).1
          (exampleDocument ++ [orderedExample])).1.calls.drop
        ((GoPdf.new okBackend).SetFont "regular" "" 12).1.calls.length =
      (renderNodes ((GoPdf.new okBackend).SetFont "regular" "" 12).1
          exampleDocument).1.calls.drop
        ((GoPdf.new okBackend).SetFont "regular" "" 12).1.calls.length ++
        (renderNodes (GoPdf.new failingBackend) [orderedExample]).1.calls.drop
          (GoPdf.new failingBackend).calls.length :=
  (renderNodes_homomorphism ((GoPdf.new okBackend).SetFont "regular" "" 12).1
    (GoPdf.new failingBackend) exampleDocument [orderedExample] (by decide)).2.1

/-- C17, counterexample: at level `2^63 - 1` the product `level*2` wraps to
`-2`, so the trace of `renderHeading` starts with `SetFont("bold", "", 20)` and
is not `SetFont("bold", "", 18 - 2*level)` followed by the trace of
`renderParagraph`. -/
theorem renderHeading_max_level_trace :
    (renderHeading (GoPdf.new okBackend) (headingNode (2 ^ 63 - 1) [textLeaf "x" []])).1.calls =
        Call.SetFont "bold" "" 20 ::
          (renderParagraph (GoPdf.new okBackend)
            (headingNode (2 ^ 63 - 1) [textLeaf "x" []])).1.calls ∧
      (renderHeading (GoPdf.new okBackend) (headingNode (2 ^ 63 - 1) [textLeaf "x" []])).1.calls ≠
        Call.SetFont "bold" "" (18 - 2 * (2 ^ 63 - 1)) ::
          (renderParagraph (GoPdf.new okBackend)
            (headingNode (2 ^ 63 - 1) [textLeaf "x" []])).1.calls := by
  decide

/-- C17, amended: for every node the calls of `renderHeading` are
`SetFont("bold", "", s)`, with `s` the float64 `18` minus the float64 of
`level*2` computed in 64 bits, followed by the calls of `renderParagraph` on
the same node, that is by the font selection at size 12, the colour selection
and the cell of `renderText` for each leaf with a non-empty text, and the
break; both return nil. For a level `L` with `9 - 2^53 ≤ L ≤ 2^53` the first
call is `SetFont("bold", "", 18 - 2*L)`. -/
theorem renderHeading_refines_paragraph (pdf : GoPdf) (node : ProseMirrorNode) :
    (renderHeading pdf node).1.calls.drop pdf.calls.length =
        Call.SetFont "bold" ""
            (roundFloat64 (18 - roundFloat64 (wrapInt (node.Attrs.Level * 2)))) ::
          (renderParagraph pdf node).1.calls.drop pdf.calls.length ∧
      (9 - 2 ^ 53 ≤ node.Attrs.Level → node.Attrs.Level ≤ 2 ^ 53 →
        (renderHeading pdf node).1.calls.drop pdf.calls.length =
          Call.SetFont "bold" "" (18 - 2 * node.Attrs.Level) ::
            (renderParagraph pdf node).1.calls.drop pdf.calls.length) ∧
      (renderParagraph pdf node).1.calls.drop pdf.calls.length =
        (node.Content.filter (fun child => child.Text ≠ "")).flatMap
            (fun child =>
              [Call.SetFont (renderTextMarks "regular" "black" child.Marks).1 "" 12,
                if (renderTextMarks "regular" "black" child.Marks).2 = "blue"
                then Call.SetTextColor 0 0 255 else Call.SetTextColor 0 0 0,
                Call.Cell child.Text]) ++ [Call.Br 20] ∧
      (renderHeading pdf node).2 = none ∧ (renderParagraph pdf node).2 = none := by
  obtain ⟨hh, hr⟩ := renderHeading_calls pdf node
  obtain ⟨hp, hq⟩ := renderParagraph_calls pdf node
  have hgen : (renderHeading pdf node).1.calls.drop pdf.calls.length =
      Call.SetFont "bold" ""
          (roundFloat64 (18 - roundFloat64 (wrapInt (node.Attrs.Level * 2)))) ::
        (renderParagraph pdf node).1.calls.drop pdf.calls.length := by
    rw [hh, hp, List.drop_left, List.drop_left]
  refine ⟨hgen, ?_, ?_, hr, hq⟩
  · intro h1 h2
    rw [hgen, headingSize_exact _ h1 h2]
  · rw [hp, List.drop_left]
    rfl

/-- Witness of C17: a level-2 heading with a bold blue leaf and an empty leaf. -/
theorem renderHeading_refines_paragraph_witness :
    (9 - 2 ^ 53 ≤ (headingNode 2
          [textLeaf "a" [plainMark "bold", colorMark "blue"], textLeaf "" []]).Attrs.Level ∧
        (headingNode 2
          [textLeaf "a" [plainMark "bold", colorMark "blue"], textLeaf "" []]).Attrs.Level ≤
          2 ^ 53) ∧
      (renderHeading (GoPdf.new okBackend)
          (headingNode 2 [textLeaf "a" [plainMark "bold", colorMark "blue"], textLeaf "" []])
        ).1.calls.drop (GoPdf.new okBackend).calls.length =
      Call.SetFont "bold" ""
          (18 - 2 * (headingNode 2
            [textLeaf "a" [plainMark "bold", colorMark "blue"], textLeaf "" []]).Attrs.Level) ::
        (renderParagraph (GoPdf.new okBackend)
          (headingNode 2 [textLeaf "a" [plainMark "bold", colorMark "blue"], textLeaf "" []])
        ).1.calls.drop (GoPdf.new okBackend).calls.length :=
  ⟨⟨by decide, by decide⟩,
    (renderHeading_refines_paragraph (GoPdf.new okBackend)
      (headingNode 2 [textLeaf "a" [plainMark "bold", colorMark "blue"], textLeaf "" []])).2.1
      (by decide) (by decide)⟩

/-! ## Bullet lists, depth of the traversal and the style of markers -/

theorem renderListLoop_bullet_calls (pdf : GoPdf) (i : Nat) (children : List ProseMirrorNode)
    (h : ∀ c ∈ children, c.Type_ = "list_item" → c.Content ≠ []) :
    (renderListLoop pdf "bullet" i children).1.calls =
        pdf.calls ++ children.flatMap (fun c =>
          if c.Type_ = "list_item" then
            Call.SetX 20 :: Call.Cell bulletMarker ::
              (c.Content.head?.map paragraphCalls).getD []
          else []) ∧
      (renderListLoop pdf "bullet" i children).2 = Outcome.returned none := by
  induction children generalizing pdf i with
  | nil => simp [renderListLoop]
  | cons child rest ih =>
    have hrest := fun q j => ih q j (fun c hc => h c (List.mem_cons_of_mem _ hc))
    have hbullet : ¬ ("bullet" = "ordered") := by decide
    by_cases ht : child.Type_ = "list_item"
    · have hne := h child (List.mem_cons_self _ _) ht
      obtain ⟨first, more, hcontent⟩ := List.exists_cons_of_ne_nil hne
      simp only [renderListLoop, ht, if_true, hcontent, hbullet, if_false]
      obtain ⟨h1, h2⟩ := hrest (renderParagraph ((pdf.SetX 20).Cell bulletMarker).1 first).1 (i + 1)
      refine ⟨?_, h2⟩
      rw [h1, (renderParagraph_calls _ _).1, Cell_calls, SetX_calls]
      simp [List.flatMap_cons, ht, hcontent]
    · simp only [renderListLoop, ht, if_false]
      obtain ⟨h1, h2⟩ := hrest pdf (i + 1)
      refine ⟨?_, h2⟩
      rw [h1]
      simp [List.flatMap_cons, ht]

/-- C15 (defect of the code): in the bullet list `[item [a], item [], item [c]]`
the second item has no content block, `child.Content[0]` panics right after
its marker, and the third list_item contributes no call at all. The items
that are reached get `SetX(20)` and the same marker string. -/
theorem renderList_bullet_item_after_panic :
    (renderList (GoPdf.new okBackend) bulletExample "bullet").1.calls =
        [Call.SetX 20, Call.Cell bulletMarker,
         Call.SetFont "regular" "" 12, Call.SetTextColor 0 0 0, Call.Cell "a", Call.Br 20,
         Call.SetX 20, Call.Cell bulletMarker] ∧
      (renderList (GoPdf.new okBackend) bulletExample "bullet").2 =
        Outcome.panicked "index out of range [0] with length 0" ∧
      (bulletExample.Content.filter (fun c => c.Type_ = "list_item")).length = 3 ∧
      ((renderList (GoPdf.new okBackend) bulletExample "bullet").1.calls.filter
        (fun c => c = Call.SetX 20)).length = 2 := by
  decide

theorem renderParagraphLoop_map (pdf : GoPdf) (f : ProseMirrorNode → ProseMirrorNode)
    (hf : ∀ c, (f c).Text = c.Text ∧ (f c).Marks = c.Marks) (children : List ProseMirrorNode) :
    renderParagraphLoop pdf (children.map f) = renderParagraphLoop pdf children := by
  induction children generalizing pdf with
  | nil => rfl
  | cons child rest ih =>
    simp only [List.map_cons, renderParagraphLoop, (hf child).1, (hf child).2, ih]

theorem renderHeadingLoop_map (pdf : GoPdf) (f : ProseMirrorNode → ProseMirrorNode)
    (hf : ∀ c, (f c).Text = c.Text ∧ (f c).Marks = c.Marks) (children : List ProseMirrorNode) :
    renderHeadingLoop pdf (children.map f) = renderHeadingLoop pdf children := by
  induction children generalizing pdf with
  | nil => rfl
  | cons child rest ih =>
    simp only [List.map_cons, renderHeadingLoop, (hf child).1, (hf child).2, ih]

theorem renderListLoop_map (pdf : GoPdf) (listType : String) (i : Nat)
    (f g : ProseMirrorNode → ProseMirrorNode)
    (hf : ∀ c, (f c).Type_ = c.Type_ ∧ (f c).Content = c.Content.map g)
    (hg : ∀ q b, renderParagraph q (g b) = renderParagraph q b)
    (children : List ProseMirrorNode) :
    renderListLoop pdf listType i (children.map f) = renderListLoop pdf listType i children := by
  induction children generalizing pdf i with
  | nil => rfl
  | cons child rest ih =>
    simp only [List.map_cons, renderListLoop, (hf child).1, (hf child).2]
    split
    · cases hcontent : child.Content with
      | nil => rfl
      | cons first more => simp only [List.map_cons, hg, ih]
    · exact ih _ _

theorem pruneBelow_fields (depth : Nat) (node : ProseMirrorNode) :
    (pruneBelow depth node).Type_ = node.Type_ ∧ (pruneBelow depth node).Text = node.Text ∧
      (pruneBelow depth node).Marks = node.Marks ∧ (pruneBelow depth node).Attrs = node.Attrs := by
  cases node
  cases depth <;> exact ⟨rfl, rfl, rfl, rfl⟩

theorem pruneBelow_succ_Content (depth : Nat) (node : ProseMirrorNode) :
    (pruneBelow (depth + 1) node).Content = node.Content.map (pruneBelow depth) := by
  cases node
  rfl

theorem renderParagraph_pruneBelow (pdf : GoPdf) (depth : Nat) (node : ProseMirrorNode) :
    renderParagraph pdf (pruneBelow (depth + 1) node) = renderParagraph pdf node := by
  unfold renderParagraph
  rw [pruneBelow_succ_Content, renderParagraphLoop_map pdf _
    (fun c => ⟨(pruneBelow_fields depth c).2.1, (pruneBelow_fields depth c).2.2.1⟩)]

theorem renderHeading_pruneBelow (pdf : GoPdf) (depth : Nat) (node : ProseMirrorNode) :
    renderHeading pdf (pruneBelow (depth + 1) node) = renderHeading pdf node := by
  unfold renderHeading
  simp only [pruneBelow_succ_Content, (pruneBelow_fields (depth + 1) node).2.2.2]
  rw [renderHeadingLoop_map _ _
    (fun c => ⟨(pruneBelow_fields depth c).2.1, (pruneBelow_fields depth c).2.2.1⟩)]

theorem renderList_pruneBelow (pdf : GoPdf) (depth : Nat) (node : ProseMirrorNode)
    (listType : String) :
    renderList pdf (pruneBelow (depth + 3) node) listType = renderList pdf node listType := by
  unfold renderList
  rw [pruneBelow_succ_Content]
  exact renderListLoop_map pdf listType 0 (pruneBelow (depth + 2)) (pruneBelow (depth + 1))
    (fun c => ⟨(pruneBelow_fields (depth + 2) c).1, pruneBelow_succ_Content (depth + 1) c⟩)
    (fun q b => renderParagraph_pruneBelow q depth b) node.Content

/-- C18, counterexample: a nested list that is the first block of a list item
does emit calls: `Br(20)` when its items are well formed, and a font, a colour
and the cell "oops" when one of its items carries a text; and the text of a
leaf on the fourth level of a list (list, item, paragraph, leaf) is rendered,
so that emptying the third level changes the calls. -/
theorem nested_list_first_block_rendered :
    (renderNode (GoPdf.new okBackend) nestedListExample).1.calls =
        [Call.SetX 20, Call.Cell bulletMarker, Call.Br 20] ∧
      (renderNode (GoPdf.new okBackend) nestedListTextExample).1.calls =
        [Call.SetX 20, Call.Cell bulletMarker, Call.SetFont "regular" "" 12,
         Call.SetTextColor 0 0 0, Call.Cell "oops", Call.Br 20] ∧
      (renderNode (GoPdf.new okBackend) nestedTextExample).1.calls =
        [Call.SetX 20, Call.Cell bulletMarker, Call.SetFont "regular" "" 12,
         Call.SetTextColor 0 0 0, Call.Cell "deep", Call.Br 20] ∧
      (renderNode (GoPdf.new okBackend) (pruneBelow 2 nestedTextExample)).1.calls =
        [Call.SetX 20, Call.Cell bulletMarker, Call.Br 20] := by
  decide

/-- C18, amended: `renderNode` on a paragraph or a heading depends on its
children only through their text and marks: giving every child an empty
content, another type and other attributes changes neither the canvas nor the
result; a child without text of its own emits nothing whatever its
descendants. In a list item a nested list after the first block emits nothing;
a nested list that is the first block is rendered as a paragraph, that is the
`renderText` calls of its direct children that carry a text and then
`Br(20)`, so only the break when its items carry no text. On every node
`renderNode` ignores whatever lies more than three levels below the node, so
it reads at most four levels (text three levels below a list is rendered); it
is a total function defined without recursion on the tree. -/
theorem renderNode_depth (pdf : GoPdf) (node : ProseMirrorNode)
    (children descendants more items : List ProseMirrorNode)
    (newType : ProseMirrorNode → String) (newAttrs : ProseMirrorNode → Attributes)
    (type text : String) (marks : List Mark) (attrs : Attributes) (first : ProseMirrorNode) :
    renderNode pdf
          (.mk "paragraph"
            (children.map (fun c => .mk (newType c) [] c.Text c.Marks (newAttrs c)))
            text marks attrs) =
        renderNode pdf (.mk "paragraph" children text marks attrs) ∧
      renderNode pdf
          (.mk "heading"
            (children.map (fun c => .mk (newType c) [] c.Text c.Marks (newAttrs c)))
            text marks attrs) =
        renderNode pdf (.mk "heading" children text marks attrs) ∧
      renderNode pdf (.mk "paragraph" [.mk type descendants "" marks attrs] text marks attrs) =
        (pdf.Br 20, Outcome.returned none) ∧
      renderNode pdf
          (.mk "bullet_list"
            [.mk "list_item" (first :: .mk "bullet_list" items text marks attrs :: more)
              text marks attrs] text marks attrs) =
        renderNode pdf
          (.mk "bullet_list" [.mk "list_item" [first] text marks attrs] text marks attrs) ∧
      (renderNode pdf
          (.mk "bullet_list"
            [.mk "list_item"
              [.mk "bullet_list"
                (items.map (fun c => .mk "list_item" c.Content "" c.Marks c.Attrs))
                text marks attrs]
              text marks attrs] text marks attrs)).1.calls =
        pdf.calls ++ [Call.SetX 20, Call.Cell bulletMarker, Call.Br 20] ∧
      (renderNode pdf
          (.mk "bullet_list"
            [.mk "list_item" (.mk "bullet_list" items text marks attrs :: more)
              text marks attrs] text marks attrs)).1.calls =
        pdf.calls ++
          Call.SetX 20 :: Call.Cell bulletMarker ::
            ((items.filter (fun child => child.Text ≠ "")).flatMap
                (fun child =>
                  [Call.SetFont (renderTextMarks "regular" "black" child.Marks).1 "" 12,
                    if (renderTextMarks "regular" "black" child.Marks).2 = "blue"
                    then Call.SetTextColor 0 0 255 else Call.SetTextColor 0 0 0,
                    Call.Cell child.Text]) ++ [Call.Br 20]) ∧
      renderNode pdf (pruneBelow 3 node) = renderNode pdf node ∧
      (renderNode (GoPdf.new okBackend) (pruneBelow 2 nestedTextExample)).1.calls ≠
        (renderNode (GoPdf.new okBackend) nestedTextExample).1.calls := by
  refine ⟨?_, ?_, ?_, ?_, ?_, ?_, ?_, by decide⟩
  · have hpar : renderParagraph pdf
          (.mk "paragraph"
            (children.map (fun c => .mk (newType c) [] c.Text c.Marks (newAttrs c)))
            text marks attrs) =
        renderParagraph pdf (.mk "paragraph" children text marks attrs) := by
      unfold renderParagraph
      simp only [Content_mk]
      rw [renderParagraphLoop_map pdf
        (fun c => ProseMirrorNode.mk (newType c) [] c.Text c.Marks (newAttrs c))
        (fun c => ⟨rfl, rfl⟩)]
    simp only [renderNode, Type_mk, hpar]
  · have hhead : renderHeading pdf
          (.mk "heading"
            (children.map (fun c => .mk (newType c) [] c.Text c.Marks (newAttrs c)))
            text marks attrs) =
        renderHeading pdf (.mk "heading" children text marks attrs) := by
      unfold renderHeading
      simp only [Content_mk]
      rw [renderHeadingLoop_map _
        (fun c => ProseMirrorNode.mk (newType c) [] c.Text c.Marks (newAttrs c))
        (fun c => ⟨rfl, rfl⟩)]
      rfl
    simp only [renderNode, Type_mk, hhead]
  · rfl
  · rfl
  · have hloop : ∀ (q : GoPdf) (l : List ProseMirrorNode),
        renderParagraphLoop q (l.map (fun c => .mk "list_item" c.Content "" c.Marks c.Attrs)) =
          (q, none) := by
      intro q l
      induction l with
      | nil => rfl
      | cons c l ih => simpa [renderParagraphLoop, ProseMirrorNode.Text] using ih
    simp only [renderNode, renderList, renderListLoop, Content_mk, Type_mk, renderParagraph,
      hloop]
    simp [Br_calls, Cell_calls, SetX_calls]
  · have hbullet : ¬("bullet" = "ordered") := by decide
    simp only [renderNode, renderList, renderListLoop, Content_mk, Type_mk, if_true, hbullet,
      if_false]
    rw [(renderParagraph_calls _ _).1, Cell_calls, SetX_calls]
    simp [paragraphCalls, textCalls, Content_mk]
  · unfold renderNode
    rw [(pruneBelow_fields 3 node).1]
    split
    · rw [renderParagraph_pruneBelow]
    · rw [renderHeading_pruneBelow]
    · rw [renderList_pruneBelow pdf 0]
    · rw [renderList_pruneBelow pdf 0]
    · rfl

theorem SetFont_cells (pdf : GoPdf) (family style : String) (size : Int) :
    (pdf.SetFont family style size).1.cells = pdf.cells := by
  unfold GoPdf.SetFont
  split <;> rfl

theorem Cell_cells (pdf : GoPdf) (text : String) :
    ∃ drawn, (pdf.Cell text).1.cells = pdf.cells ++ drawn := by
  unfold GoPdf.Cell
  split
  · exact ⟨[], (List.append_nil _).symm⟩
  · exact ⟨_, rfl⟩

theorem renderText_cells (pdf : GoPdf) (text : String) (marks : List Mark) :
    ∃ drawn, (renderText pdf text marks).1.cells = pdf.cells ++ drawn := by
  unfold renderText
  simp only
  split
  · obtain ⟨d, hd⟩ := Cell_cells
      ((pdf.SetFont (renderTextMarks "regular" "black" marks).1 "" 12).1.SetTextColor 0 0 255) text
    exact ⟨d, by rw [hd]; simp [GoPdf.SetTextColor, GoPdf.log, SetFont_cells]⟩
  · obtain ⟨d, hd⟩ := Cell_cells
      ((pdf.SetFont (renderTextMarks "regular" "black" marks).1 "" 12).1.SetTextColor 0 0 0) text
    exact ⟨d, by rw [hd]; simp [GoPdf.SetTextColor, GoPdf.log, SetFont_cells]⟩

theorem renderParagraphLoop_cells (pdf : GoPdf) (children : List ProseMirrorNode) :
    ∃ drawn, (renderParagraphLoop pdf children).1.cells = pdf.cells ++ drawn := by
  induction children generalizing pdf with
  | nil => exact ⟨[], (List.append_nil _).symm⟩
  | cons child rest ih =>
    by_cases h : child.Text = ""
    · simp only [renderParagraphLoop, h, ne_eq, not_true_eq_false, if_false]
      exact ih pdf
    · have hr : renderText pdf child.Text child.Marks =
          ((renderText pdf child.Text child.Marks).1, none) := rfl
      simp only [renderParagraphLoop, ne_eq, h, not_false_eq_true, if_true]
      rw [hr]
      simp only
      obtain ⟨d1, h1⟩ := renderText_cells pdf child.Text child.Marks
      obtain ⟨d2, h2⟩ := ih (renderText pdf child.Text child.Marks).1
      exact ⟨d1 ++ d2, by rw [h2, h1, List.append_assoc]⟩

theorem renderParagraph_cells (pdf : GoPdf) (node : ProseMirrorNode) :
    ∃ drawn, (renderParagraph pdf node).1.cells = pdf.cells ++ drawn := by
  obtain ⟨d, hd⟩ := renderParagraphLoop_cells pdf node.Content
  have h2 := (renderParagraphLoop_calls pdf node.Content).2
  have hr : renderParagraphLoop pdf node.Content =
      ((renderParagraphLoop pdf node.Content).1, none) := by
    rw [← h2]
  unfold renderParagraph
  rw [hr]
  exact ⟨d, hd⟩

theorem renderListLoop_cells (pdf : GoPdf) (listType : String) (i : Nat)
    (children : List ProseMirrorNode) :
    ∃ drawn, (renderListLoop pdf listType i children).1.cells = pdf.cells ++ drawn := by
  induction children generalizing pdf i with
  | nil => exact ⟨[], (List.append_nil _).symm⟩
  | cons child rest ih =>
    by_cases ht : child.Type_ = "list_item"
    · cases hcontent : child.Content with
      | nil =>
        simp only [renderListLoop, ht, if_true, hcontent]
        split
        · exact Cell_cells (pdf.SetX 20) _
        · exact Cell_cells (pdf.SetX 20) _
      | cons first more =>
        simp only [renderListLoop, ht, if_true, hcontent]
        split
        · obtain ⟨d1, h1⟩ := Cell_cells (pdf.SetX 20) (orderedMarker (i + 1))
          obtain ⟨d2, h2⟩ := renderParagraph_cells
            ((pdf.SetX 20).Cell (orderedMarker (i + 1))).1 first
          obtain ⟨d3, h3⟩ := ih
            (renderParagraph ((pdf.SetX 20).Cell (orderedMarker (i + 1))).1 first).1 (i + 1)
          exact ⟨d1 ++ d2 ++ d3, by
            rw [h3, h2, h1]
            simp [GoPdf.SetX, GoPdf.log]⟩
        · obtain ⟨d1, h1⟩ := Cell_cells (pdf.SetX 20) bulletMarker
          obtain ⟨d2, h2⟩ := renderParagraph_cells ((pdf.SetX 20).Cell bulletMarker).1 first
          obtain ⟨d3, h3⟩ := ih (renderParagraph ((pdf.SetX 20).Cell bulletMarker).1 first).1 (i + 1)
          exact ⟨d1 ++ d2 ++ d3, by
            rw [h3, h2, h1]
            simp [GoPdf.SetX, GoPdf.log]⟩
    · simp only [renderListLoop, ht, if_false]
      exact ih pdf (i + 1)

theorem renderListLoop_append (pdf : GoPdf) (listType : String) (i : Nat)
    (pre rest : List ProseMirrorNode)
    (hpre : (renderListLoop pdf listType i pre).2 = Outcome.returned none) :
    renderListLoop pdf listType i (pre ++ rest) =
      renderListLoop (renderListLoop pdf listType i pre).1 listType (i + pre.length) rest := by
  induction pre generalizing pdf i with
  | nil => rfl
  | cons child more ih =>
    have hidx : i + (child :: more).length = i + 1 + more.length := by
      simp only [List.length_cons]
      omega
    rw [hidx]
    simp only [List.cons_append, renderListLoop] at hpre ⊢
    split
    · next ht =>
      simp only [ht, if_true] at hpre
      cases hcontent : child.Content with
      | nil =>
        rw [hcontent] at hpre
        simp only at hpre
        cases hpre
      | cons first others =>
        rw [hcontent] at hpre
        simp only at hpre ⊢
        exact ih _ _ hpre
    · next ht =>
      simp only [ht, if_false] at hpre
      exact ih _ _ hpre

theorem renderListLoop_marker (q : GoPdf) (listType : String) (i : Nat)
    (item : ProseMirrorNode) (rest : List ProseMirrorNode) (hitem : item.Type_ = "list_item") :
    (∃ tail, (renderListLoop q listType i (item :: rest)).1.calls =
        q.calls ++ Call.SetX 20 ::
          Call.Cell (if listType = "ordered" then orderedMarker (i + 1) else bulletMarker) ::
            tail) ∧
      (q.backend.reject (q.calls ++ [Call.SetX 20])
          (Call.Cell (if listType = "ordered" then orderedMarker (i + 1) else bulletMarker)) =
          none →
        ∃ drawn, (renderListLoop q listType i (item :: rest)).1.cells =
          q.cells ++
            { text := if listType = "ordered" then orderedMarker (i + 1) else bulletMarker,
              family := q.family, size := q.size, color := q.color } :: drawn) := by
  have hstep :
      (if listType = "ordered" then ((q.SetX 20).Cell (orderedMarker (i + 1))).1
        else ((q.SetX 20).Cell bulletMarker).1) =
        ((q.SetX 20).Cell
          (if listType = "ordered" then orderedMarker (i + 1) else bulletMarker)).1 := by
    split <;> rfl
  have hcalls := Cell_calls (q.SetX 20)
    (if listType = "ordered" then orderedMarker (i + 1) else bulletMarker)
  rw [SetX_calls] at hcalls
  have hcells : q.backend.reject (q.calls ++ [Call.SetX 20])
      (Call.Cell (if listType = "ordered" then orderedMarker (i + 1) else bulletMarker)) =
        none →
      ((q.SetX 20).Cell
          (if listType = "ordered" then orderedMarker (i + 1) else bulletMarker)).1.cells =
        q.cells ++
          [{ text := if listType = "ordered" then orderedMarker (i + 1) else bulletMarker,
             family := q.family, size := q.size, color := q.color }] := by
    intro hacc
    have hacc2 : (q.SetX 20).backend.reject (q.SetX 20).calls
        (Call.Cell (if listType = "ordered" then orderedMarker (i + 1) else bulletMarker)) =
          none := hacc
    unfold GoPdf.Cell
    rw [hacc2]
    rfl
  cases hcontent : item.Content with
  | nil =>
    simp only [renderListLoop, hitem, if_true, hcontent, hstep]
    refine ⟨⟨[], by rw [hcalls]; simp⟩, fun hacc => ⟨[], ?_⟩⟩
    rw [hcells hacc]
  | cons first more =>
    simp only [renderListLoop, hitem, if_true, hcontent, hstep]
    obtain ⟨t, ht, _, _⟩ := renderListLoop_trace
      (renderParagraph ((q.SetX 20).Cell
        (if listType = "ordered" then orderedMarker (i + 1) else bulletMarker)).1 first).1
      q listType (i + 1) rest
    obtain ⟨d1, hd1⟩ := renderParagraph_cells ((q.SetX 20).Cell
        (if listType = "ordered" then orderedMarker (i + 1) else bulletMarker)).1 first
    obtain ⟨d2, hd2⟩ := renderListLoop_cells
      (renderParagraph ((q.SetX 20).Cell
        (if listType = "ordered" then orderedMarker (i + 1) else bulletMarker)).1 first).1
      listType (i + 1) rest
    refine ⟨⟨paragraphCalls first ++ t, ?_⟩, fun hacc => ⟨d1 ++ d2, ?_⟩⟩
    · rw [ht, (renderParagraph_calls _ _).1, hcalls]
      simp
    · rw [hd2, hd1, hcells hacc]
      simp

/-- C19: when `renderList` reaches a list_item, the calls issued since the end
of the previous children are `SetX(20)` and then the marker cell, with no font
or colour selection in between; so, when the canvas accepts the cell, the
marker is drawn with the family, size and colour that the canvas had after the
previous children: regular at 12pt in black for a list that opens the
document, bold at 12pt in blue after a paragraph that ends with a bold blue
leaf. -/
theorem renderList_marker_style (pdf : GoPdf) (listType type text : String)
    (marks : List Mark) (attrs : Attributes) (pre post : List ProseMirrorNode)
    (item : ProseMirrorNode)
    (hpre : (renderList pdf (.mk type pre text marks attrs) listType).2 = Outcome.returned none)
    (hitem : item.Type_ = "list_item") :
    (∃ tail,
        (renderList pdf (.mk type (pre ++ item :: post) text marks attrs) listType).1.calls =
          (renderList pdf (.mk type pre text marks attrs) listType).1.calls ++
            Call.SetX 20 ::
              Call.Cell
                (if listType = "ordered" then orderedMarker (pre.length + 1)
                  else bulletMarker) :: tail) ∧
      ((renderList pdf (.mk type pre text marks attrs) listType).1.backend.reject
            ((renderList pdf (.mk type pre text marks attrs) listType).1.calls ++
              [Call.SetX 20])
            (Call.Cell
              (if listType = "ordered" then orderedMarker (pre.length + 1) else bulletMarker)) =
          none →
        ∃ drawn,
          (renderList pdf (.mk type (pre ++ item :: post) text marks attrs) listType).1.cells =
            (renderList pdf (.mk type pre text marks attrs) listType).1.cells ++
              { text :=
                  if listType = "ordered" then orderedMarker (pre.length + 1) else bulletMarker,
                family := (renderList pdf (.mk type pre text marks attrs) listType).1.family,
                size := (renderList pdf (.mk type pre text marks attrs) listType).1.size,
                color := (renderList pdf (.mk type pre text marks attrs) listType).1.color } ::
                drawn) ∧
      (NewPdfDocument okBackend [nestedTextExample]).1.cells =
        [{ text := bulletMarker, family := "regular", size := 12, color := (0, 0, 0) },
         { text := "deep", family := "regular", size := 12, color := (0, 0, 0) }] ∧
      (NewPdfDocument okBackend styledThenList).1.cells =
        [{ text := "x", family := "bold", size := 12, color := (0, 0, 255) },
         { text := bulletMarker, family := "bold", size := 12, color := (0, 0, 255) },
         { text := "a", family := "regular", size := 12, color := (0, 0, 0) }] := by
  simp only [renderList, Content_mk] at hpre ⊢
  have happ := renderListLoop_append pdf listType 0 pre (item :: post) hpre
  have hmark := renderListLoop_marker (renderListLoop pdf listType 0 pre).1 listType
    (0 + pre.length) item post hitem
  rw [Nat.zero_add] at happ hmark
  rw [happ]
  exact ⟨hmark.1, hmark.2, by decide, by decide⟩

/-- Witness of C19: the second item of an ordered list that follows a bold blue
leaf; its marker comes right after the break of the first item. -/
theorem renderList_marker_style_witness :
    ∃ tail,
      (renderList (GoPdf.new okBackend)
          (.mk "ordered_list"
            ([block "list_item" [block "paragraph" [textLeaf "x" [plainMark "bold"]]]] ++
              block "list_item" [] :: [])
            "" [] ⟨0, ""⟩) "ordered").1.calls =
        (renderList (GoPdf.new okBackend)
          (.mk "ordered_list"
            [block "list_item" [block "paragraph" [textLeaf "x" [plainMark "bold"]]]]
            "" [] ⟨0, ""⟩) "ordered").1.calls ++
          Call.SetX 20 ::
            Call.Cell
              (if "ordered" = "ordered" then
                orderedMarker
                  ([block "list_item"
                    [block "paragraph" [textLeaf "x" [plainMark "bold"]]]].length + 1)
                else bulletMarker) :: tail :=
  (renderList_marker_style (GoPdf.new okBackend) "ordered" "ordered_list" "" [] ⟨0, ""⟩
    [block "list_item" [block "paragraph" [textLeaf "x" [plainMark "bold"]]]] []
    (block "list_item" []) (by decide) (by decide)).1

/-! ## The first content block of a list item -/

/-- C10: in `renderList`, for either list type, replacing the content
`first :: more` of a child by `[first]` changes neither the calls issued nor
the outcome, and neither does the type of `first`: only the first content
block of a list item is rendered, as a paragraph. The same holds through
`renderNode` on a bullet_list and on an ordered_list. The first block is
rendered: a list with the single item `first :: more` issues `SetX(20)`, the
marker and then the calls of `first` as a paragraph (the `renderText` calls of
its children with a non-empty text, then `Br(20)`) and returns nil, and so
does the loop on such an item at any index, before the calls of the children
that follow. -/
theorem renderList_first_block_only (pdf : GoPdf) (listType type text itemType itemText : String)
    (marks itemMarks : List Mark) (attrs itemAttrs : Attributes)
    (pre post more : List ProseMirrorNode) (first : ProseMirrorNode) (otherType : String)
    (i : Nat) :
    renderList pdf
          (.mk type (pre ++ .mk itemType (first :: more) itemText itemMarks itemAttrs :: post)
            text marks attrs) listType =
        renderList pdf
          (.mk type (pre ++ .mk itemType [first] itemText itemMarks itemAttrs :: post)
            text marks attrs) listType ∧
      renderNode pdf
          (.mk "bullet_list"
            (pre ++ .mk itemType (first :: more) itemText itemMarks itemAttrs :: post)
            text marks attrs) =
        renderNode pdf
          (.mk "bullet_list" (pre ++ .mk itemType [first] itemText itemMarks itemAttrs :: post)
            text marks attrs) ∧
      renderNode pdf
          (.mk "ordered_list"
            (pre ++ .mk itemType (first :: more) itemText itemMarks itemAttrs :: post)
            text marks attrs) =
        renderNode pdf
          (.mk "ordered_list" (pre ++ .mk itemType [first] itemText itemMarks itemAttrs :: post)
            text marks attrs) ∧
      renderList pdf
          (.mk type (pre ++ .mk itemType (first :: more) itemText itemMarks itemAttrs :: post)
            text marks attrs) listType =
        renderList pdf
          (.mk type
            (pre ++ .mk itemType [.mk otherType first.Content first.Text first.Marks first.Attrs]
              itemText itemMarks itemAttrs :: post)
            text marks attrs) listType ∧
      (renderList pdf
          (.mk type [.mk "list_item" (first :: more) itemText itemMarks itemAttrs]
            text marks attrs) listType).1.calls =
        pdf.calls ++
          Call.SetX 20 ::
            Call.Cell (if listType = "ordered" then orderedMarker 1 else bulletMarker) ::
              paragraphCalls first ∧
      (renderList pdf
          (.mk type [.mk "list_item" (first :: more) itemText itemMarks itemAttrs]
            text marks attrs) listType).2 = Outcome.returned none ∧
      (∃ tail,
        (renderListLoop pdf listType i
            (.mk "list_item" (first :: more) itemText itemMarks itemAttrs :: post)).1.calls =
          pdf.calls ++
            Call.SetX 20 ::
              Call.Cell (if listType = "ordered" then orderedMarker (i + 1) else bulletMarker) ::
                (paragraphCalls first ++ tail)) ∧
      paragraphCalls first =
        (first.Content.filter (fun child => child.Text ≠ "")).flatMap
            (fun child =>
              [Call.SetFont (renderTextMarks "regular" "black" child.Marks).1 "" 12,
                if (renderTextMarks "regular" "black" child.Marks).2 = "blue"
                then Call.SetTextColor 0 0 255 else Call.SetTextColor 0 0 0,
                Call.Cell child.Text]) ++ [Call.Br 20] := by
  have hstep : ∀ lt q i tail,
      renderListLoop q lt i (.mk itemType (first :: more) itemText itemMarks itemAttrs :: tail) =
        renderListLoop q lt i (.mk itemType [first] itemText itemMarks itemAttrs :: tail) := by
    intro lt q i tail
    simp only [renderListLoop, Type_mk, Content_mk]
  have hlist : ∀ t lt,
      renderList pdf
          (.mk t (pre ++ .mk itemType (first :: more) itemText itemMarks itemAttrs :: post)
            text marks attrs) lt =
        renderList pdf
          (.mk t (pre ++ .mk itemType [first] itemText itemMarks itemAttrs :: post)
            text marks attrs) lt := by
    intro t lt
    simp only [renderList, Content_mk]
    exact renderListLoop_replace lt _ _ (hstep lt) pdf 0 pre post
  have hpar : ∀ q,
      renderParagraph q (.mk otherType first.Content first.Text first.Marks first.Attrs) =
        renderParagraph q first :=
    fun q => renderParagraph_congr q _ first rfl
  have hmarker : ∀ (q : GoPdf) (k : Nat),
      (if listType = "ordered" then ((q.SetX 20).Cell (orderedMarker (k + 1))).1
        else ((q.SetX 20).Cell bulletMarker).1) =
        ((q.SetX 20).Cell
          (if listType = "ordered" then orderedMarker (k + 1) else bulletMarker)).1 := by
    intro q k
    split <;> rfl
  refine ⟨hlist type listType, ?_, ?_, ?_, ?_, ?_, ?_, rfl⟩
  · simp only [renderNode, Type_mk]
    exact hlist "bullet_list" "bullet"
  · simp only [renderNode, Type_mk]
    exact hlist "ordered_list" "ordered"
  · simp only [renderList, Content_mk]
    refine renderListLoop_replace listType _ _ ?_ pdf 0 pre post
    intro q i tail
    simp only [renderListLoop, Type_mk, Content_mk, hpar]
  · simp only [renderList, Content_mk, renderListLoop, Type_mk, if_true, hmarker]
    rw [(renderParagraph_calls _ _).1, Cell_calls, SetX_calls]
    simp
  · simp only [renderList, Content_mk, renderListLoop, Type_mk, if_true]
  · simp only [renderListLoop, Type_mk, if_true, Content_mk, hmarker]
    obtain ⟨t, ht, _, _⟩ := renderListLoop_trace
      (renderParagraph ((pdf.SetX 20).Cell
        (if listType = "ordered" then orderedMarker (i + 1) else bulletMarker)).1 first).1
      pdf listType (i + 1) post
    refine ⟨t, ?_⟩
    rw [ht, (renderParagraph_calls _ _).1, Cell_calls, SetX_calls]
    simp

end ProseMirror2PDF
